import Mathlib

/-!
# VmObject bookkeeping (kernel/vm/vm_object.cpp)

A shallow embedding of the base VM object of the kernel's memory manager: the
constructor and destructor, the mapping and children registries with their
explicit counters, the queries, the lock discipline of the `*Locked` operations,
the range-change notification with its descent through the clone tree, and the
debug command `cmd_vm_object`.

Objects live in a heap indexed by object identifiers (their addresses).  A
mutex is identified by the object whose `local_lock_` member it is.  Calls
into collaborators (`VmMapping::UnmapVmoRangeLocked`, the virtual
`RangeChangeUpdateFromParentLocked` of a child, `Mutex::Acquire` and
`Mutex::Release`) are recorded, in order, in a trace.

`DEBUG_ASSERT` and `canary_.Assert()` are embedded as they behave in a
debug-instrumented build: a failing assertion stops the run.  A stopped run
keeps the reason and the kernel state reached at that instant.
-/

namespace Magenta

/-- Address of a `VmObject`. -/
abbrev ObjId := Nat

/-- Address of a `VmMapping`. -/
abbrev MappingId := Nat

/-- A mutex instance, named by the object that owns it as `local_lock_`. -/
abbrev LockId := Nat

/-- Modelled from the spec: the page size, a constant of the architecture headers that are
not part of the sources at hand; the spec's scenario fixes it to 4096. -/
def PAGE_SIZE : Nat := 4096

/-- Number of values of a `uint64_t`. -/
def U64 : Nat := 2 ^ 64

/-- Number of values of a `uint32_t`, the type `num_mappings` and `num_children` return. -/
def U32 : Nat := 2 ^ 32

/-- Modelled from the spec: `ROUNDDOWN(a, b)`, a macro of a kernel header outside the sources
at hand; the spec reads it as the floor of `a` to a multiple of `b`. -/
def ROUNDDOWN (a b : Nat) : Nat := a / b * b

/-- Modelled from the spec: `ROUNDUP(a, b)`, a macro of a kernel header outside the sources at
hand; the spec reads it as the ceiling of `a` to a multiple of `b`.  The operands are
`uint64_t`, so the intermediate sum `a + (b - 1)` wraps at `2 ^ 64`. -/
def ROUNDUP (a b : Nat) : Nat := (a + (b - 1)) % U64 / b * b

/-- Reasons for which a run stops. -/
inductive Fault where
  /-- The `canary_.Assert()` of an object that is not live. -/
  | canary
  /-- The assertion `DEBUG_ASSERT(lock_.IsHeld())`. -/
  | lockNotHeld
  /-- The assertion `DEBUG_ASSERT(mapping_list_len_ > 0)`. -/
  | mappingCountZero
  /-- The assertion `DEBUG_ASSERT(children_list_len_ > 0)`. -/
  | childrenCountZero
  /-- The assertion `DEBUG_ASSERT(mapping_list_.is_empty())`. -/
  | mappingListNotEmpty
  /-- The assertion `DEBUG_ASSERT(children_list_.is_empty())`. -/
  | childrenListNotEmpty
  /-- Acquiring a mutex the executing context already holds. -/
  | selfDeadlock
  /-- Releasing a mutex the executing context does not hold. -/
  | releaseNotHeld
  deriving DecidableEq, Repr

/-- Calls that leave the object: what the collaborators are asked to do. -/
inductive Event where
  /-- The call `m.UnmapVmoRangeLocked(offset, len)` on a mapping. -/
  | unmap (m : MappingId) (offset len : Nat)
  /-- The call `child.RangeChangeUpdateFromParentLocked(offset, len)` on a child. -/
  | fromParent (child : ObjId) (offset len : Nat)
  /-- The call `Acquire()` on a mutex. -/
  | acquire (l : LockId)
  /-- The call `Release()` on a mutex. -/
  | release (l : LockId)
  deriving DecidableEq, Repr

/-- Modelled from the spec: the members of a `VmObject`, declared in `vm_object.h`, which is
not among the sources at hand; the members `vm_object.cpp` uses are listed under their names.
The two intrusive lists are collections of non-owning back-references: they are kept as lists
of addresses, newest entry first (`push_front` puts an entry at the head, `erase` takes one
entry out and leaves a list that does not hold it as it is, iteration runs from the head).
The two counters are unsigned 32-bit, the type under which `num_mappings` and `num_children`
hand them out. -/
structure VmObject where
  /-- The mutex `lock_` refers to. -/
  lock_ : LockId
  /-- The owning reference to the parent, absent for a root object. -/
  parent_ : Option ObjId
  /-- The mappings registered with the object. -/
  mapping_list_ : List MappingId
  /-- The explicit count of `mapping_list_`. -/
  mapping_list_len_ : Nat
  /-- The children registered with the object. -/
  children_list_ : List ObjId
  /-- The explicit count of `children_list_`. -/
  children_list_len_ : Nat
  deriving DecidableEq, Repr

/-- The kernel state the operations act on. -/
structure Kernel where
  /-- The live objects. -/
  objs : ObjId → Option VmObject
  /-- The mutexes held by the executing context. -/
  held : LockId → Bool
  /-- The calls made to collaborators so far, oldest first. -/
  trace : List Event

/-- A run either returns or stops at a failed assertion, with the state reached there. -/
abbrev Run (α : Type) := Except (Fault × Kernel) α

/-- Store `o` at address `i` (`none` frees the address). -/
def Kernel.setObj (k : Kernel) (i : ObjId) (o : Option VmObject) : Kernel :=
  { k with objs := fun j => if j = i then o else k.objs j }

/-- Mark the mutex `l` as held or not held. -/
def Kernel.setHeld (k : Kernel) (l : LockId) (b : Bool) : Kernel :=
  { k with held := fun j => if j = l then b else k.held j }

/-- Record a call to a collaborator. -/
def Kernel.emit (k : Kernel) (e : Event) : Kernel :=
  { k with trace := k.trace ++ [e] }

/-- Modelled from the spec: `Mutex::IsHeld`, whether the executing context holds the mutex. -/
def Mutex.IsHeld (k : Kernel) (l : LockId) : Bool := k.held l

/-- Modelled from the spec: `Mutex::Acquire`.  The lock primitive is an external collaborator;
acquiring a mutex the executing context already holds deadlocks. -/
def Mutex.Acquire (k : Kernel) (l : LockId) : Run Kernel :=
  if Mutex.IsHeld k l then .error (Fault.selfDeadlock, k)
  else .ok ((k.emit (Event.acquire l)).setHeld l true)

/-- Modelled from the spec: `Mutex::Release`, the counterpart of `Mutex.Acquire`. -/
def Mutex.Release (k : Kernel) (l : LockId) : Run Kernel :=
  if Mutex.IsHeld k l then .ok ((k.emit (Event.release l)).setHeld l false)
  else .error (Fault.releaseNotHeld, k)

/-- Modelled from the spec: `lock_ref()`, an accessor of `vm_object.h`: the mutex the object
uses, the one shared by its whole ancestor chain. -/
def VmObject.lock_ref (o : VmObject) : LockId := o.lock_

/-- The constructor `VmObject::VmObject(parent)` run at the fresh address `self`:
`lock_` is bound to `parent->lock_ref()` when a parent is given and to the own `local_lock_`
otherwise, `parent_` takes the reference; both lists start empty with counters at zero.
Nothing else happens in the constructor.  A parent reference is owning, so it designates a
live object; the run stops if it does not. -/
def VmObject_ctor (k : Kernel) (self : ObjId) (parent : Option ObjId) : Run Kernel :=
  match parent with
  | none =>
    .ok (k.setObj self (some
      { lock_ := self, parent_ := none,
        mapping_list_ := [], mapping_list_len_ := 0,
        children_list_ := [], children_list_len_ := 0 }))
  | some p =>
    match k.objs p with
    | none => .error (Fault.canary, k)
    | some po =>
      .ok (k.setObj self (some
        { lock_ := po.lock_ref, parent_ := some p,
          mapping_list_ := [], mapping_list_len_ := 0,
          children_list_ := [], children_list_len_ := 0 }))

/-- The operation `VmObject::AddMappingLocked(r)`. -/
def VmObject.AddMappingLocked (k : Kernel) (self : ObjId) (r : MappingId) : Run Kernel :=
  match k.objs self with
  | none => .error (Fault.canary, k)
  | some o =>
    if Mutex.IsHeld k o.lock_ = false then .error (Fault.lockNotHeld, k)
    else
      let o1 := { o with mapping_list_ := r :: o.mapping_list_ }
      let o2 := { o1 with mapping_list_len_ := (o1.mapping_list_len_ + 1) % U32 }
      .ok (k.setObj self (some o2))

/-- The operation `VmObject::RemoveMappingLocked(r)`: the entry is erased first, the counter
is checked and decremented afterwards. -/
def VmObject.RemoveMappingLocked (k : Kernel) (self : ObjId) (r : MappingId) : Run Kernel :=
  match k.objs self with
  | none => .error (Fault.canary, k)
  | some o =>
    if Mutex.IsHeld k o.lock_ = false then .error (Fault.lockNotHeld, k)
    else
      let o1 := { o with mapping_list_ := o.mapping_list_.erase r }
      if o1.mapping_list_len_ = 0 then
        .error (Fault.mappingCountZero, k.setObj self (some o1))
      else
        let o2 := { o1 with mapping_list_len_ := o1.mapping_list_len_ - 1 }
        .ok (k.setObj self (some o2))

/-- The query `VmObject::num_mappings()`: the counter, read under a scoped `AutoLock`. -/
def VmObject.num_mappings (k : Kernel) (self : ObjId) : Run (Nat × Kernel) :=
  match k.objs self with
  | none => .error (Fault.canary, k)
  | some o => do
    let k1 ← Mutex.Acquire k o.lock_
    let k2 ← Mutex.Release k1 o.lock_
    pure (o.mapping_list_len_, k2)

/-- The operation `VmObject::AddChildLocked(o)`. -/
def VmObject.AddChildLocked (k : Kernel) (self : ObjId) (c : ObjId) : Run Kernel :=
  match k.objs self with
  | none => .error (Fault.canary, k)
  | some o =>
    if Mutex.IsHeld k o.lock_ = false then .error (Fault.lockNotHeld, k)
    else
      let o1 := { o with children_list_ := c :: o.children_list_ }
      let o2 := { o1 with children_list_len_ := (o1.children_list_len_ + 1) % U32 }
      .ok (k.setObj self (some o2))

/-- The operation `VmObject::RemoveChildLocked(o)`: the entry is erased first, the counter is
checked and decremented afterwards. -/
def VmObject.RemoveChildLocked (k : Kernel) (self : ObjId) (c : ObjId) : Run Kernel :=
  match k.objs self with
  | none => .error (Fault.canary, k)
  | some o =>
    if Mutex.IsHeld k o.lock_ = false then .error (Fault.lockNotHeld, k)
    else
      let o1 := { o with children_list_ := o.children_list_.erase c }
      if o1.children_list_len_ = 0 then
        .error (Fault.childrenCountZero, k.setObj self (some o1))
      else
        let o2 := { o1 with children_list_len_ := o1.children_list_len_ - 1 }
        .ok (k.setObj self (some o2))

/-- The query `VmObject::num_children()`: the counter, read under a scoped `AutoLock`. -/
def VmObject.num_children (k : Kernel) (self : ObjId) : Run (Nat × Kernel) :=
  match k.objs self with
  | none => .error (Fault.canary, k)
  | some o => do
    let k1 ← Mutex.Acquire k o.lock_
    let k2 ← Mutex.Release k1 o.lock_
    pure (o.children_list_len_, k2)

/-- The operation `VmObject::RangeChangeUpdateLocked(offset, len)`.  Both arguments are
`uint64_t`; the sum `offset + len` and the difference that gives `aligned_len` wrap at
`2 ^ 64`. -/
def VmObject.RangeChangeUpdateLocked (k : Kernel) (self : ObjId) (offset len : Nat) :
    Run Kernel :=
  match k.objs self with
  | none => .error (Fault.canary, k)
  | some o =>
    if Mutex.IsHeld k o.lock_ = false then .error (Fault.lockNotHeld, k)
    else
      let aligned_offset := ROUNDDOWN offset PAGE_SIZE
      let aligned_len := (ROUNDUP ((offset + len) % U64) PAGE_SIZE + U64 - aligned_offset) % U64
      let k1 := o.mapping_list_.foldl
        (fun s m => s.emit (Event.unmap m aligned_offset aligned_len)) k
      let k2 := o.children_list_.foldl
        (fun s child => s.emit (Event.fromParent child offset len)) k1
      .ok k2

/-- The destructor `VmObject::~VmObject()` run on the object at `self`: with a parent, the
lock is taken unless it is held, the parent is told `RemoveChildLocked(this)` and the lock is
given back if it was taken; then both lists are asserted empty, as they stand at that moment.
When the destructor returns the address is free.  Dropping the reference to the parent after
the body is the business of the reference-counting primitive and is not followed here. -/
def VmObject_dtor (k : Kernel) (self : ObjId) : Run Kernel :=
  match k.objs self with
  | none => .error (Fault.canary, k)
  | some o => do
    let k1 ← match o.parent_ with
      | none => pure k
      | some p => do
        let need_lock := !(Mutex.IsHeld k o.lock_)
        let ka ← if need_lock then Mutex.Acquire k o.lock_ else pure k
        let kb ← VmObject.RemoveChildLocked ka p self
        if need_lock then Mutex.Release kb o.lock_ else pure kb
    match k1.objs self with
    | none => .error (Fault.canary, k1)
    | some o1 =>
      if o1.mapping_list_ ≠ [] then .error (Fault.mappingListNotEmpty, k1)
      else if o1.children_list_ ≠ [] then .error (Fault.childrenListNotEmpty, k1)
      else .ok (k1.setObj self none)

/-- The unmap request an event stands for, if it is one: receiver, offset, length. -/
def Event.unmapCall : Event → Option (MappingId × Nat × Nat)
  | Event.unmap m offset len => some (m, offset, len)
  | _ => none

/-- The child notification an event stands for, if it is one: receiver, offset, length. -/
def Event.fromParentCall : Event → Option (ObjId × Nat × Nat)
  | Event.fromParent c offset len => some (c, offset, len)
  | _ => none

/-- The events a run added to the trace of the state `k` it started from. -/
def Kernel.eventsSince (k2 k : Kernel) : List Event := k2.trace.drop k.trace.length

/-- The spec's `alignedOffset`: `offset` rounded down to a multiple of the page size. -/
def alignedOffset_spec (offset : Nat) : Nat := PAGE_SIZE * (offset / PAGE_SIZE)

/-- The spec's `alignedEnd`: `offset + length` rounded up to a multiple of the page size,
over the unbounded naturals. -/
def alignedEnd_spec (offset len : Nat) : Nat :=
  PAGE_SIZE * ((offset + len + (PAGE_SIZE - 1)) / PAGE_SIZE)

/-- The spec's `alignedLength = alignedEnd - alignedOffset`, over the unbounded naturals. -/
def alignedLength_spec (offset len : Nat) : Nat :=
  alignedEnd_spec offset len - alignedOffset_spec offset

/-- A root object with two mappings and one child, used to instantiate the theorems. -/
def demoRoot : VmObject :=
  { lock_ := 0, parent_ := none,
    mapping_list_ := [7, 8], mapping_list_len_ := 2,
    children_list_ := [1], children_list_len_ := 1 }

/-- The child of `demoRoot`: a clone without mappings or children, sharing the root's lock. -/
def demoChild : VmObject :=
  { lock_ := 0, parent_ := some 0,
    mapping_list_ := [], mapping_list_len_ := 0,
    children_list_ := [], children_list_len_ := 0 }

/-- A second root object, with a lock, a mapping and a child of its own. -/
def demoOther : VmObject :=
  { lock_ := 3, parent_ := none,
    mapping_list_ := [9], mapping_list_len_ := 1,
    children_list_ := [4], children_list_len_ := 1 }

/-- The child of `demoOther`. -/
def demoOtherChild : VmObject :=
  { lock_ := 3, parent_ := some 3,
    mapping_list_ := [], mapping_list_len_ := 0,
    children_list_ := [], children_list_len_ := 0 }

/-- A root object without mappings and without children. -/
def demoLone : VmObject :=
  { lock_ := 6, parent_ := none,
    mapping_list_ := [], mapping_list_len_ := 0,
    children_list_ := [], children_list_len_ := 0 }

/-- A kernel state holding `demoRoot` at address 0 with its child at address 1,
`demoOther` at address 3 with its child at address 4, and `demoLone` at address 6.  The lock of the first tree is held
when `locked` is set; the lock of the second tree is not held. -/
def demoKernel (locked : Bool) : Kernel :=
  { objs := fun i =>
      if i = 0 then some demoRoot
      else if i = 1 then some demoChild
      else if i = 3 then some demoOther
      else if i = 4 then some demoOtherChild
      else if i = 6 then some demoLone
      else none,
    held := fun l => if l = 0 then locked else false,
    trace := [] }

/-- A root object whose mapping counter stands at its largest value, with that many
mappings registered. -/
def crowdedRoot : VmObject :=
  { lock_ := 0, parent_ := none,
    mapping_list_ := List.range 4294967295, mapping_list_len_ := 4294967295,
    children_list_ := [], children_list_len_ := 0 }

/-- A kernel state holding `crowdedRoot` at address 0, with its lock held. -/
def crowdedKernel : Kernel :=
  { objs := fun i => if i = 0 then some crowdedRoot else none,
    held := fun l => if l = 0 then true else false,
    trace := [] }

/-- The value a query returned, without the state it left. -/
def Run.value {α : Type} (r : Run (α × Kernel)) : Except Fault α :=
  match r with
  | .ok (v, _) => .ok v
  | .error (f, _) => .error f

/-- One call of a `*Locked` operation on an object. -/
inductive Call where
  /-- `AddMappingLocked(r)`. -/
  | AddMappingLocked (r : MappingId)
  /-- `RemoveMappingLocked(r)`. -/
  | RemoveMappingLocked (r : MappingId)
  /-- `AddChildLocked(o)`. -/
  | AddChildLocked (c : ObjId)
  /-- `RemoveChildLocked(o)`. -/
  | RemoveChildLocked (c : ObjId)
  /-- `RangeChangeUpdateLocked(offset, len)`. -/
  | RangeChangeUpdateLocked (offset len : Nat)
  deriving DecidableEq, Repr

/-- Make one call on the object at `self`. -/
def Call.run (self : ObjId) (k : Kernel) : Call → Run Kernel
  | Call.AddMappingLocked r => VmObject.AddMappingLocked k self r
  | Call.RemoveMappingLocked r => VmObject.RemoveMappingLocked k self r
  | Call.AddChildLocked c => VmObject.AddChildLocked k self c
  | Call.RemoveChildLocked c => VmObject.RemoveChildLocked k self c
  | Call.RangeChangeUpdateLocked offset len => VmObject.RangeChangeUpdateLocked k self offset len

/-- Make a sequence of calls on the object at `self`, stopping at the first failed
assertion. -/
def runCalls (self : ObjId) (k : Kernel) : List Call → Run Kernel
  | [] => .ok k
  | c :: cs =>
    match c.run self k with
    | .ok k1 => runCalls self k1 cs
    | .error e => .error e

/-- Whether a call that removes an entry names one that is registered with `o`; calls that
remove nothing pass. -/
def Call.namesRegistered (o : VmObject) : Call → Bool
  | Call.RemoveMappingLocked r => decide (r ∈ o.mapping_list_)
  | Call.RemoveChildLocked c => decide (c ∈ o.children_list_)
  | _ => true

/-- Whether, along the run of `calls` on the object at `self`, every removal names an entry
registered at the time of the call. -/
def removalsRegistered (self : ObjId) (k : Kernel) : List Call → Bool
  | [] => true
  | c :: cs =>
    match k.objs self with
    | none => true
    | some o =>
      c.namesRegistered o &&
        (match c.run self k with
         | .ok k1 => removalsRegistered self k1 cs
         | .error _ => true)

/-- The kernel state before any object exists: nothing live, nothing held, nothing traced. -/
def emptyKernel : Kernel :=
  { objs := fun _ => none, held := fun _ => false, trace := [] }

/-- A root object as the constructor leaves it at address 0. -/
def freshRoot : VmObject :=
  { lock_ := 0, parent_ := none,
    mapping_list_ := [], mapping_list_len_ := 0,
    children_list_ := [], children_list_len_ := 0 }

/-- The kernel state after constructing a root object at address 0 in the empty kernel and
acquiring its lock. -/
def rootKernel : Kernel :=
  ((emptyKernel.setObj 0 (some freshRoot)).emit (Event.acquire 0)).setHeld 0 true

/-- Construct a clone chain: the first address is constructed with `parent`, every further
address with the object constructed just before it as parent. -/
def buildChain (k : Kernel) (parent : Option ObjId) : List ObjId → Run Kernel
  | [] => .ok k
  | i :: rest =>
    match VmObject_ctor k i parent with
    | .ok k1 => buildChain k1 (some i) rest
    | .error e => .error e

/-- Whether a stop is a failed assertion (`canary_.Assert()` or `DEBUG_ASSERT`), as opposed
to a misuse of the mutex. -/
def Fault.isAssertion : Fault → Bool
  | Fault.selfDeadlock => false
  | Fault.releaseNotHeld => false
  | _ => true

/-- The two counters agree with the lengths of their lists as 32-bit numbers. -/
def VmObject.countsTrack (o : VmObject) : Prop :=
  o.mapping_list_len_ = o.mapping_list_.length % U32 ∧
  o.children_list_len_ = o.children_list_.length % U32

/-- The query `VmObject::is_cow_clone()`: whether `parent_` is set, read under a scoped
`AutoLock`. -/
def VmObject.is_cow_clone (k : Kernel) (self : ObjId) : Run (Bool × Kernel) :=
  match k.objs self with
  | none => .error (Fault.canary, k)
  | some o => do
    let k1 ← Mutex.Acquire k o.lock_
    let k2 ← Mutex.Release k1 o.lock_
    pure (o.parent_.isSome, k2)

/-- The clone chain `R, C1, C2` at addresses 10, 11, 12 with the shared lock held, after
`C1` has been registered as a child of `R` and before `C2` is registered with `C1`. -/
def chainKernel : Kernel :=
  { objs := fun i =>
      if i = 10 then some (VmObject.mk 10 none [] 0 [11] 1)
      else if i = 11 then some (VmObject.mk 10 (some 10) [] 0 [] 0)
      else if i = 12 then some (VmObject.mk 10 (some 11) [] 0 [] 0)
      else none,
    held := fun l => if l = 10 then true else false,
    trace := [] }

/-- Modelled from the spec: `cmd_args`, the argument type of console commands, declared in a
console header outside the sources at hand; an argument is available as text (`str`) and as
a number (`u`). -/
structure cmd_args where
  /-- The argument as text. -/
  str : String
  /-- The argument as an unsigned number. -/
  u : Nat
  deriving DecidableEq, Repr

/-- Modelled from the spec: the two status codes `cmd_vm_object` returns, constants of an error
header outside the sources at hand. -/
inductive Status where
  /-- The code `NO_ERROR`. -/
  | NO_ERROR
  /-- The code `ERR_INTERNAL`. -/
  | ERR_INTERNAL
  deriving DecidableEq, Repr

/-- What `cmd_vm_object` does besides reading its arguments. -/
inductive ConsoleStep where
  /-- The output `printf("not enough arguments\n")`. -/
  | notEnoughArguments
  /-- The output `printf("unknown command\n")`. -/
  | unknownCommand
  /-- The three `printf` of the usage text, which name the command as `argv[0].str`. -/
  | usage (name : String)
  /-- The call `o->Dump(0, pages)` on the object at address `o`. -/
  | Dump (o : Nat) (pages : Bool)
  deriving DecidableEq, Repr

/-- A read of `argv[index]` at or past `argv + argc`, after the steps `done`. -/
inductive CmdStop where
  /-- The read of `argv[index]` that leaves the argument vector. -/
  | readPastEnd (index : Nat) (done : List ConsoleStep)
  deriving DecidableEq, Repr

/-- The label `usage:` of `cmd_vm_object`: print the usage text and return `ERR_INTERNAL`. -/
def cmd_vm_object_usage (argv : List cmd_args) (done : List ConsoleStep) :
    Except CmdStop (List ConsoleStep × Status) :=
  match argv[0]? with
  | none => .error (CmdStop.readPastEnd 0 done)
  | some a0 => .ok (done ++ [ConsoleStep.usage a0.str], Status.ERR_INTERNAL)

/-- The label `notenoughargs:` of `cmd_vm_object`, which falls through to `usage:`. -/
def cmd_vm_object_notenoughargs (argv : List cmd_args) (done : List ConsoleStep) :
    Except CmdStop (List ConsoleStep × Status) :=
  cmd_vm_object_usage argv (done ++ [ConsoleStep.notEnoughArguments])

/-- The debug command `cmd_vm_object(argc, argv, flags)`; `flags` is not used.  The argument
vector holds `argv.length` entries, and reading an entry beyond them stops the run.  Both
subcommands test `argc < 2` a second time before they read `argv[2]`. -/
def cmd_vm_object (argc : Nat) (argv : List cmd_args) :
    Except CmdStop (List ConsoleStep × Status) :=
  if argc < 2 then cmd_vm_object_notenoughargs argv []
  else
    match argv[1]? with
    | none => .error (CmdStop.readPastEnd 1 [])
    | some a1 =>
      if a1.str = "dump" then
        if argc < 2 then cmd_vm_object_notenoughargs argv []
        else
          match argv[2]? with
          | none => .error (CmdStop.readPastEnd 2 [])
          | some a2 => .ok ([ConsoleStep.Dump a2.u false], Status.NO_ERROR)
      else if a1.str = "dump_pages" then
        if argc < 2 then cmd_vm_object_notenoughargs argv []
        else
          match argv[2]? with
          | none => .error (CmdStop.readPastEnd 2 [])
          | some a2 => .ok ([ConsoleStep.Dump a2.u true], Status.NO_ERROR)
      else cmd_vm_object_usage argv [ConsoleStep.unknownCommand]

/-- The closing part of the destructor: the two assertions on the object's own lists, then the
address is freed. -/
def VmObject_dtor_asserts (k1 : Kernel) (self : ObjId) : Run Kernel :=
  match k1.objs self with
  | none => .error (Fault.canary, k1)
  | some o1 =>
    if o1.mapping_list_ ≠ [] then .error (Fault.mappingListNotEmpty, k1)
    else if o1.children_list_ ≠ [] then .error (Fault.childrenListNotEmpty, k1)
    else .ok (k1.setObj self none)

/-- Visit the children in list order, each in the state the previous one left; stop at the
first child whose visit stops.  The result is `none` when a visit runs out of fuel. -/
def forEachChild (visit : Kernel → ObjId → Option (Run Kernel)) :
    Kernel → List ObjId → Option (Run Kernel)
  | k, [] => some (.ok k)
  | k, c :: cs =>
    match visit k c with
    | some (.ok k1) => forEachChild visit k1 cs
    | some (.error e) => some (.error e)
    | none => none

/-- Modelled from the spec: the virtual `RangeChangeUpdateFromParentLocked` of a child is
declared in `vm_object.h`, which is not among the sources at hand; by the spec the child
forwards the `(offset, len)` it receives to its own `RangeChangeUpdateLocked`.  This is
`VmObject::RangeChangeUpdateLocked` of `vm_object.cpp` with that forwarding in the place of
the call to the child: the call is recorded and then carried out.  The recursion is bounded
by `fuel`, one unit per level of the clone tree; `none` means the fuel ran out. -/
def VmObject.RangeChangeUpdateLocked_tree :
    Nat → Kernel → ObjId → Nat → Nat → Option (Run Kernel)
  | 0, _, _, _, _ => none
  | fuel + 1, k, self, offset, len =>
    match k.objs self with
    | none => some (.error (Fault.canary, k))
    | some o =>
      if Mutex.IsHeld k o.lock_ = false then some (.error (Fault.lockNotHeld, k))
      else
        let aligned_offset := ROUNDDOWN offset PAGE_SIZE
        let aligned_len :=
          (ROUNDUP ((offset + len) % U64) PAGE_SIZE + U64 - aligned_offset) % U64
        let k1 := o.mapping_list_.foldl
          (fun s m => s.emit (Event.unmap m aligned_offset aligned_len)) k
        forEachChild
          (fun s child =>
            VmObject.RangeChangeUpdateLocked_tree fuel
              (s.emit (Event.fromParent child offset len)) child offset len)
          k1 o.children_list_

/-- The objects of the clone tree below `root`: `root` itself and, with every object, the
entries of its children list. -/
inductive Descendant (objs : ObjId → Option VmObject) (root : ObjId) : ObjId → Prop where
  /-- The root belongs to its tree. -/
  | refl : Descendant objs root root
  /-- The children of an object of the tree belong to the tree. -/
  | step {d c : ObjId} {o : VmObject} :
      Descendant objs root d → objs d = some o → c ∈ o.children_list_ →
      Descendant objs root c

/-- The objects below `root` form a finite, acyclic clone tree under one held lock: every
object of the tree is live, its lock is held, and each of its children is strictly lower in
`rank` than the object itself. -/
def IsCloneTree (objs : ObjId → Option VmObject) (held : LockId → Bool) (rank : ObjId → Nat)
    (root : ObjId) : Prop :=
  ∀ d, Descendant objs root d →
    ∃ o, objs d = some o ∧ held o.lock_ = true ∧ ∀ c ∈ o.children_list_, rank c < rank d

/-- The mapping registrations of the tree below `self`, down to `fuel` levels: the object's
own mapping list first, then those of the subtrees of its children, in list order. -/
def subtreeMappings : Nat → (ObjId → Option VmObject) → ObjId → List MappingId
  | 0, _, _ => []
  | fuel + 1, objs, self =>
    match objs self with
    | none => []
    | some o => o.mapping_list_ ++ o.children_list_.flatMap (subtreeMappings fuel objs)

/-- The calls a descent through the tree below `self` makes, down to `fuel` levels. -/
def treeEvents : Nat → (ObjId → Option VmObject) → ObjId → Nat → Nat → List Event
  | 0, _, _, _, _ => []
  | fuel + 1, objs, self, offset, len =>
    match objs self with
    | none => []
    | some o =>
      o.mapping_list_.map (fun m => Event.unmap m (ROUNDDOWN offset PAGE_SIZE)
        ((ROUNDUP ((offset + len) % U64) PAGE_SIZE + U64 - ROUNDDOWN offset PAGE_SIZE) % U64))
      ++ o.children_list_.flatMap (fun c =>
        Event.fromParent c offset len :: treeEvents fuel objs c offset len)

/-- The spec's scenario with mappings: the chain `R, C1, C2` at addresses 10, 11, 12, each
registered with its parent, the shared lock held; `R` has mapping 7, `C1` has none and `C2`
has mappings 8 and 9. -/
def treeKernel : Kernel :=
  { objs := fun i =>
      if i = 10 then some (VmObject.mk 10 none [7] 1 [11] 1)
      else if i = 11 then some (VmObject.mk 10 (some 10) [] 0 [12] 1)
      else if i = 12 then some (VmObject.mk 10 (some 11) [8, 9] 2 [] 0)
      else none,
    held := fun l => if l = 10 then true else false,
    trace := [] }

/-! ## Auxiliary facts -/

theorem foldl_emit {α : Type} (f : α → Event) (l : List α) (k : Kernel) :
    l.foldl (fun s a => s.emit (f a)) k = { k with trace := k.trace ++ l.map f } := by
  induction l generalizing k with
  | nil => simp
  | cons a t ih =>
    simp only [List.foldl_cons, List.map_cons]
    rw [ih]
    simp [Kernel.emit]

theorem rangeChange_run (k : Kernel) (self : ObjId) (o : VmObject) (offset len : Nat)
    (hlive : k.objs self = some o) (hheld : k.held o.lock_ = true) :
    VmObject.RangeChangeUpdateLocked k self offset len =
      .ok { k with trace := k.trace ++
        (o.mapping_list_.map (fun m => Event.unmap m (ROUNDDOWN offset PAGE_SIZE)
          ((ROUNDUP ((offset + len) % U64) PAGE_SIZE + U64 - ROUNDDOWN offset PAGE_SIZE) % U64))
        ++ o.children_list_.map (fun c => Event.fromParent c offset len)) } := by
  simp [VmObject.RangeChangeUpdateLocked, hlive, Mutex.IsHeld, hheld, foldl_emit]

theorem aligned_len_eq (offset len : Nat) (ho : offset < U64) (hl : len < U64) :
    (ROUNDUP ((offset + len) % U64) PAGE_SIZE + U64 - ROUNDDOWN offset PAGE_SIZE) % U64
      = alignedLength_spec offset len % U64 := by
  simp only [ROUNDUP, ROUNDDOWN, alignedLength_spec, alignedEnd_spec, alignedOffset_spec,
    PAGE_SIZE, U64] at *
  omega

theorem aligned_offset_eq (offset : Nat) :
    ROUNDDOWN offset PAGE_SIZE = alignedOffset_spec offset := by
  simp only [ROUNDDOWN, alignedOffset_spec, PAGE_SIZE]
  omega

theorem filterMap_unmapCall_map (a b : Nat) (l : List MappingId) :
    (l.map (fun m => Event.unmap m a b)).filterMap Event.unmapCall
      = l.map (fun m => (m, a, b)) := by
  induction l with
  | nil => rfl
  | cons a t ih => simp [Event.unmapCall, ih]

theorem filterMap_unmapCall_fromParent (offset len : Nat) (l : List ObjId) :
    (l.map (fun c => Event.fromParent c offset len)).filterMap Event.unmapCall = [] := by
  induction l with
  | nil => rfl
  | cons a t ih => simp [Event.unmapCall, ih]

theorem filterMap_fromParentCall_map (offset len : Nat) (l : List ObjId) :
    (l.map (fun c => Event.fromParent c offset len)).filterMap Event.fromParentCall
      = l.map (fun c => (c, offset, len)) := by
  induction l with
  | nil => rfl
  | cons a t ih => simp [Event.fromParentCall, ih]

theorem filterMap_fromParentCall_unmap (a b : Nat) (l : List MappingId) :
    (l.map (fun m => Event.unmap m a b)).filterMap Event.fromParentCall = [] := by
  induction l with
  | nil => rfl
  | cons x t ih => simp [Event.fromParentCall, ih]

theorem setObj_self (k : Kernel) (i : ObjId) (o : Option VmObject) :
    (k.setObj i o).objs i = o := by
  simp [Kernel.setObj]

theorem setObj_other (k : Kernel) (i j : ObjId) (o : Option VmObject) (h : j ≠ i) :
    (k.setObj i o).objs j = k.objs j := by
  simp [Kernel.setObj, h]

theorem setObj_same (k : Kernel) (i : ObjId) (o : VmObject) (h : k.objs i = some o) :
    k.setObj i (some o) = k := by
  cases k with
  | mk objs held trace =>
    simp only [Kernel.setObj, Kernel.mk.injEq, and_true]
    funext j
    by_cases hj : j = i
    · subst hj; simpa using h.symm
    · simp [hj]

theorem setObj_setObj (k : Kernel) (i : ObjId) (a b : Option VmObject) :
    (k.setObj i a).setObj i b = k.setObj i b := by
  simp only [Kernel.setObj, Kernel.mk.injEq, and_true]
  funext j
  by_cases hj : j = i <;> simp [hj]

theorem addMapping_run (k : Kernel) (self : ObjId) (o : VmObject) (r : MappingId)
    (hlive : k.objs self = some o) (hheld : k.held o.lock_ = true) :
    VmObject.AddMappingLocked k self r =
      .ok (k.setObj self (some { o with
        mapping_list_ := r :: o.mapping_list_,
        mapping_list_len_ := (o.mapping_list_len_ + 1) % U32 })) := by
  simp [VmObject.AddMappingLocked, hlive, Mutex.IsHeld, hheld]

theorem removeMapping_run (k : Kernel) (self : ObjId) (o : VmObject) (r : MappingId)
    (hlive : k.objs self = some o) (hheld : k.held o.lock_ = true)
    (hpos : o.mapping_list_len_ ≠ 0) :
    VmObject.RemoveMappingLocked k self r =
      .ok (k.setObj self (some { o with
        mapping_list_ := o.mapping_list_.erase r,
        mapping_list_len_ := o.mapping_list_len_ - 1 })) := by
  simp [VmObject.RemoveMappingLocked, hlive, Mutex.IsHeld, hheld, hpos]

theorem removeMapping_stop (k : Kernel) (self : ObjId) (o : VmObject) (r : MappingId)
    (hlive : k.objs self = some o) (hheld : k.held o.lock_ = true)
    (hzero : o.mapping_list_len_ = 0) :
    VmObject.RemoveMappingLocked k self r =
      .error (Fault.mappingCountZero,
        k.setObj self (some { o with mapping_list_ := o.mapping_list_.erase r })) := by
  simp [VmObject.RemoveMappingLocked, hlive, Mutex.IsHeld, hheld, hzero]

theorem addChild_run (k : Kernel) (self : ObjId) (o : VmObject) (c : ObjId)
    (hlive : k.objs self = some o) (hheld : k.held o.lock_ = true) :
    VmObject.AddChildLocked k self c =
      .ok (k.setObj self (some { o with
        children_list_ := c :: o.children_list_,
        children_list_len_ := (o.children_list_len_ + 1) % U32 })) := by
  simp [VmObject.AddChildLocked, hlive, Mutex.IsHeld, hheld]

theorem removeChild_run (k : Kernel) (self : ObjId) (o : VmObject) (c : ObjId)
    (hlive : k.objs self = some o) (hheld : k.held o.lock_ = true)
    (hpos : o.children_list_len_ ≠ 0) :
    VmObject.RemoveChildLocked k self c =
      .ok (k.setObj self (some { o with
        children_list_ := o.children_list_.erase c,
        children_list_len_ := o.children_list_len_ - 1 })) := by
  simp [VmObject.RemoveChildLocked, hlive, Mutex.IsHeld, hheld, hpos]

theorem removeChild_stop (k : Kernel) (self : ObjId) (o : VmObject) (c : ObjId)
    (hlive : k.objs self = some o) (hheld : k.held o.lock_ = true)
    (hzero : o.children_list_len_ = 0) :
    VmObject.RemoveChildLocked k self c =
      .error (Fault.childrenCountZero,
        k.setObj self (some { o with children_list_ := o.children_list_.erase c })) := by
  simp [VmObject.RemoveChildLocked, hlive, Mutex.IsHeld, hheld, hzero]

theorem numMappings_run (k : Kernel) (self : ObjId) (o : VmObject)
    (hlive : k.objs self = some o) (hfree : k.held o.lock_ = false) :
    VmObject.num_mappings k self =
      .ok (o.mapping_list_len_,
        (((k.emit (Event.acquire o.lock_)).setHeld o.lock_ true).emit
          (Event.release o.lock_)).setHeld o.lock_ false) := by
  simp [VmObject.num_mappings, hlive, Mutex.Acquire, Mutex.Release, Mutex.IsHeld, hfree,
    Kernel.setHeld, Kernel.emit, bind, Except.bind, pure, Except.pure]

theorem numChildren_run (k : Kernel) (self : ObjId) (o : VmObject)
    (hlive : k.objs self = some o) (hfree : k.held o.lock_ = false) :
    VmObject.num_children k self =
      .ok (o.children_list_len_,
        (((k.emit (Event.acquire o.lock_)).setHeld o.lock_ true).emit
          (Event.release o.lock_)).setHeld o.lock_ false) := by
  simp [VmObject.num_children, hlive, Mutex.Acquire, Mutex.Release, Mutex.IsHeld, hfree,
    Kernel.setHeld, Kernel.emit, bind, Except.bind, pure, Except.pure]

/-! ## Range-change notification -/

/-- C1: with the object live and its lock held, `RangeChangeUpdateLocked(offset, len)` returns,
and the unmap requests it issued are, in order, one per entry of the mapping list, each with the
arguments `(aligned_offset, aligned_len)`: `offset` rounded down to the page size, and the end
`offset + len` rounded up to the page size minus `aligned_offset`, as a `uint64_t`.  Both
arguments of every request are multiples of the page size. -/
theorem rangeChange_unmaps_every_mapping_aligned (k : Kernel) (self : ObjId) (o : VmObject)
    (offset len : Nat) (hlive : k.objs self = some o) (hheld : k.held o.lock_ = true)
    (ho : offset < U64) (hl : len < U64) :
    ∃ k2, VmObject.RangeChangeUpdateLocked k self offset len = .ok k2 ∧
      (k2.eventsSince k).filterMap Event.unmapCall =
        o.mapping_list_.map
          (fun m => (m, alignedOffset_spec offset, alignedLength_spec offset len % U64)) ∧
      (∀ c ∈ (k2.eventsSince k).filterMap Event.unmapCall,
        PAGE_SIZE ∣ c.2.1 ∧ PAGE_SIZE ∣ c.2.2) := by
  have hrun := rangeChange_run k self o offset len hlive hheld
  rw [aligned_len_eq offset len ho hl, aligned_offset_eq] at hrun
  have hcalls : ∀ k2, VmObject.RangeChangeUpdateLocked k self offset len = .ok k2 →
      (k2.eventsSince k).filterMap Event.unmapCall =
        o.mapping_list_.map
          (fun m => (m, alignedOffset_spec offset, alignedLength_spec offset len % U64)) := by
    intro k2 h2
    rw [hrun] at h2
    cases h2
    simp only [Kernel.eventsSince, List.drop_left, List.filterMap_append,
      filterMap_unmapCall_fromParent, filterMap_unmapCall_map, List.append_nil]
  refine ⟨_, hrun, hcalls _ hrun, ?_⟩
  intro c hc
  rw [hcalls _ hrun] at hc
  obtain ⟨m, _, rfl⟩ := List.mem_map.1 hc
  refine ⟨⟨offset / PAGE_SIZE, rfl⟩, ?_⟩
  show PAGE_SIZE ∣ alignedLength_spec offset len % U64
  simp only [alignedLength_spec, alignedEnd_spec, alignedOffset_spec, PAGE_SIZE, U64]
  omega

/-- Witness of C1 (page size 4096): on the root of the demo state, `(100, 50)` yields
`unmap(0, 4096)` on each of the two mappings. -/
theorem rangeChange_unmaps_every_mapping_aligned_witness :
    ∃ k2, VmObject.RangeChangeUpdateLocked (demoKernel true) 0 100 50 = .ok k2 ∧
      (k2.eventsSince (demoKernel true)).filterMap Event.unmapCall
        = [(7, 0, 4096), (8, 0, 4096)] := by
  obtain ⟨k2, hrun, hcalls, _⟩ :=
    rangeChange_unmaps_every_mapping_aligned (demoKernel true) 0 demoRoot 100 50 rfl rfl
      (by decide) (by decide)
  exact ⟨k2, hrun, by rw [hcalls]; decide⟩

/-- C2: with the object live and its lock held, `RangeChangeUpdateLocked(offset, len)` returns,
and the notifications it sent through `RangeChangeUpdateFromParentLocked` are, in order, one per
entry of the children list, each with the original `(offset, len)` as received. -/
theorem rangeChange_notifies_every_child_unaligned (k : Kernel) (self : ObjId) (o : VmObject)
    (offset len : Nat) (hlive : k.objs self = some o) (hheld : k.held o.lock_ = true) :
    ∃ k2, VmObject.RangeChangeUpdateLocked k self offset len = .ok k2 ∧
      (k2.eventsSince k).filterMap Event.fromParentCall =
        o.children_list_.map (fun c => (c, offset, len)) := by
  refine ⟨_, rangeChange_run k self o offset len hlive hheld, ?_⟩
  simp only [Kernel.eventsSince, List.drop_left, List.filterMap_append,
    filterMap_fromParentCall_unmap, filterMap_fromParentCall_map, List.nil_append]

/-- Witness of C2: on the root of the demo state, `(100, 50)` reaches the one child as
`(100, 50)`, not as the aligned `(0, 4096)`. -/
theorem rangeChange_notifies_every_child_unaligned_witness :
    ∃ k2, VmObject.RangeChangeUpdateLocked (demoKernel true) 0 100 50 = .ok k2 ∧
      (k2.eventsSince (demoKernel true)).filterMap Event.fromParentCall = [(1, 100, 50)] := by
  obtain ⟨k2, hrun, hcalls⟩ :=
    rangeChange_notifies_every_child_unaligned (demoKernel true) 0 demoRoot 100 50 rfl rfl
  exact ⟨k2, hrun, by rw [hcalls]; rfl⟩

/-! ## Mapping registry -/

/-- C3, as stated, fails at a full counter: on an object with 4294967295 registered mappings
and the counter at 4294967295, adding the unregistered mapping 4294967295 wraps the 32-bit
counter to zero, and removing it again stops at `DEBUG_ASSERT(mapping_list_len_ > 0)`. -/
theorem addMapping_then_removeMapping_full_counter :
    crowdedKernel.objs 0 = some crowdedRoot ∧
    crowdedKernel.held crowdedRoot.lock_ = true ∧
    4294967295 ∉ crowdedRoot.mapping_list_ ∧
    crowdedRoot.mapping_list_len_ = crowdedRoot.mapping_list_.length ∧
    ∃ k1 s, VmObject.AddMappingLocked crowdedKernel 0 4294967295 = .ok k1 ∧
      VmObject.RemoveMappingLocked k1 0 4294967295 = .error (Fault.mappingCountZero, s) := by
  refine ⟨rfl, rfl, ?_, ?_, _, _, addMapping_run crowdedKernel 0 crowdedRoot 4294967295 rfl rfl,
    removeMapping_stop _ 0 _ 4294967295 (setObj_self _ _ _) rfl ?_⟩
  · simp only [crowdedRoot, List.mem_range, lt_irrefl, not_false_eq_true]
  · simp only [crowdedRoot, List.length_range]
  · show (4294967295 + 1) % U32 = 0
    decide

/-- C3 (amended): for an object whose mapping counter is below its largest value, with the
lock held and `m` not registered, `AddMappingLocked(m)` followed by `RemoveMappingLocked(m)`
both return and restore the state they started from: `num_mappings` answers the prior value,
`m` is absent from the mapping list and every mapping registered before is still present. -/
theorem addMapping_then_removeMapping_restores (k : Kernel) (self : ObjId) (o : VmObject)
    (m : MappingId) (hlive : k.objs self = some o) (hheld : k.held o.lock_ = true)
    (hfresh : m ∉ o.mapping_list_) (hroom : o.mapping_list_len_ + 1 < U32) :
    ∃ k1 k2 o2, VmObject.AddMappingLocked k self m = .ok k1 ∧
      VmObject.RemoveMappingLocked k1 self m = .ok k2 ∧
      k2 = k ∧ k2.objs self = some o2 ∧
      (VmObject.num_mappings (k.setHeld o.lock_ false) self).value = .ok o.mapping_list_len_ ∧
      (VmObject.num_mappings (k2.setHeld o.lock_ false) self).value
        = .ok o.mapping_list_len_ ∧
      m ∉ o2.mapping_list_ ∧ (∀ x ∈ o.mapping_list_, x ∈ o2.mapping_list_) := by
  have hadd := addMapping_run k self o m hlive hheld
  have hpos : (o.mapping_list_len_ + 1) % U32 ≠ 0 := by
    rw [Nat.mod_eq_of_lt hroom]; omega
  have hrem := removeMapping_run
    (k.setObj self (some { o with
      mapping_list_ := m :: o.mapping_list_,
      mapping_list_len_ := (o.mapping_list_len_ + 1) % U32 })) self
    { o with mapping_list_ := m :: o.mapping_list_,
             mapping_list_len_ := (o.mapping_list_len_ + 1) % U32 } m
    (setObj_self k self _) hheld hpos
  have hback : (k.setObj self (some { o with
        mapping_list_ := m :: o.mapping_list_,
        mapping_list_len_ := (o.mapping_list_len_ + 1) % U32 })).setObj self (some
      { o with mapping_list_ := (m :: o.mapping_list_).erase m,
               mapping_list_len_ := (o.mapping_list_len_ + 1) % U32 - 1 }) = k := by
    rw [setObj_setObj, Nat.mod_eq_of_lt hroom]
    simp only [List.erase_cons_head, Nat.add_sub_cancel]
    exact setObj_same k self o hlive
  have hnum : (VmObject.num_mappings (k.setHeld o.lock_ false) self).value
      = .ok o.mapping_list_len_ := by
    rw [numMappings_run (k.setHeld o.lock_ false) self o hlive (by simp [Kernel.setHeld])]
    rfl
  refine ⟨_, _, o, hadd, hrem, hback, ?_, hnum, ?_, hfresh, fun x hx => hx⟩
  · rw [hback]; exact hlive
  · rw [hback]; exact hnum

/-- Witness of C3 (amended): on the root of the demo state, adding and removing the
unregistered mapping 5 gives back the demo state, with `num_mappings` at 2. -/
theorem addMapping_then_removeMapping_restores_witness :
    ∃ k1 k2 o2, VmObject.AddMappingLocked (demoKernel true) 0 5 = .ok k1 ∧
      VmObject.RemoveMappingLocked k1 0 5 = .ok k2 ∧
      k2 = demoKernel true ∧ k2.objs 0 = some o2 ∧
      (VmObject.num_mappings ((demoKernel true).setHeld 0 false) 0).value = .ok 2 ∧
      (VmObject.num_mappings (k2.setHeld 0 false) 0).value = .ok 2 ∧
      5 ∉ o2.mapping_list_ ∧ (∀ x ∈ [7, 8], x ∈ o2.mapping_list_) :=
  addMapping_then_removeMapping_restores (demoKernel true) 0 demoRoot 5 rfl rfl
    (by decide) (by decide)

/-! ## Construction and destruction -/

/-- C4, as stated, fails: constructing an object at address 2 with the childless object at
address 1 as parent returns with the parent as it was; `num_children` of the parent answers 0
before and after, and the new object is not in the parent's children list. -/
theorem ctor_does_not_register :
    (VmObject.num_children (demoKernel false) 1).value = .ok 0 ∧
    ∃ k2 P, VmObject_ctor (demoKernel false) 2 (some 1) = .ok k2 ∧
      k2.objs 1 = some P ∧ 2 ∉ P.children_list_ ∧
      (VmObject.num_children k2 1).value = .ok 0 := by
  refine ⟨?_, (demoKernel false).setObj 2 (some
      { lock_ := 0, parent_ := some 1,
        mapping_list_ := [], mapping_list_len_ := 0,
        children_list_ := [], children_list_len_ := 0 }), demoChild, rfl, rfl, ?_, ?_⟩
  · rw [numChildren_run (demoKernel false) 1 demoChild rfl rfl]; rfl
  · simp [demoChild]
  · rw [numChildren_run _ 1 demoChild rfl rfl]; rfl

/-- C4 (amended): constructing an object at a fresh address `self` with the live parent `p`
returns; the new object holds the parent reference, uses the parent's lock and has empty
lists, while the parent, and with it the parent's children list and count, is unchanged.
The registration is the separate call `AddChildLocked(self)` on the parent: made with the
lock held, it returns, puts `self` into the parent's children list and advances the parent's
32-bit count by one. -/
theorem ctor_then_addChild_registers (k : Kernel) (self p : ObjId) (P : VmObject)
    (hfresh : k.objs self = none) (hparent : k.objs p = some P) :
    ∃ k2 C, VmObject_ctor k self (some p) = .ok k2 ∧
      k2.objs self = some C ∧ C.parent_ = some p ∧ C.lock_ = P.lock_ ∧
      C.mapping_list_ = [] ∧ C.children_list_ = [] ∧
      k2.objs p = some P ∧ k2.held = k.held ∧ k2.trace = k.trace ∧
      (k2.held P.lock_ = true →
        ∃ k3 P3, VmObject.AddChildLocked k2 p self = .ok k3 ∧
          k3.objs p = some P3 ∧ self ∈ P3.children_list_ ∧
          P3.children_list_ = self :: P.children_list_ ∧
          P3.children_list_len_ = (P.children_list_len_ + 1) % U32 ∧
          (P.children_list_len_ + 1 < U32 →
            P3.children_list_len_ = P.children_list_len_ + 1)) := by
  have hne : p ≠ self := by
    intro h; rw [h, hfresh] at hparent; cases hparent
  have hp2 : (k.setObj self (some
      { lock_ := P.lock_, parent_ := some p,
        mapping_list_ := [], mapping_list_len_ := 0,
        children_list_ := [], children_list_len_ := 0 })).objs p = some P := by
    rw [setObj_other _ _ _ _ hne]; exact hparent
  refine ⟨k.setObj self (some
      { lock_ := P.lock_, parent_ := some p,
        mapping_list_ := [], mapping_list_len_ := 0,
        children_list_ := [], children_list_len_ := 0 }),
      { lock_ := P.lock_, parent_ := some p,
        mapping_list_ := [], mapping_list_len_ := 0,
        children_list_ := [], children_list_len_ := 0 },
      ?_, setObj_self _ _ _, rfl, rfl, rfl, rfl, hp2, rfl, rfl, ?_⟩
  · simp [VmObject_ctor, hparent, VmObject.lock_ref]
  · intro hheld
    refine ⟨_, _, addChild_run _ p P self hp2 hheld, setObj_self _ _ _, ?_, rfl, rfl, ?_⟩
    · simp
    · intro hroom
      exact Nat.mod_eq_of_lt hroom

/-- Witness of C4 (amended): in the demo state with the lock held, the object constructed at
address 2 with parent 1 becomes the only child of its parent after `AddChildLocked`. -/
theorem ctor_then_addChild_registers_witness :
    ∃ k2 k3 P3, VmObject_ctor (demoKernel true) 2 (some 1) = .ok k2 ∧
      k2.objs 1 = some demoChild ∧
      VmObject.AddChildLocked k2 1 2 = .ok k3 ∧ k3.objs 1 = some P3 ∧
      P3.children_list_ = [2] ∧ P3.children_list_len_ = 1 := by
  obtain ⟨k2, C, hctor, _, _, _, _, _, hp, hheld, _, hadd⟩ :=
    ctor_then_addChild_registers (demoKernel true) 2 1 demoChild rfl rfl
  obtain ⟨k3, P3, hrun, hP3, _, hlist, _, hcount⟩ := hadd (by rw [hheld]; rfl)
  exact ⟨k2, k3, P3, hctor, hp, hrun, hP3, hlist, hcount (by decide)⟩

/-- C5, as stated, fails when the parent's count has drifted from its list.  In the demo
state, with the lock held, the root at address 0 lists child 1 and counts one child.
`RemoveChildLocked` of child 4 (a child of the object at address 3, not of the root) returns
and leaves the root with child 1 still listed and a count of 0.  The child at address 1 still
has the root as parent, is registered in the root's children list and has empty lists of its
own, yet destroying it does not lower the count by one: the destructor stops at
`DEBUG_ASSERT(children_list_len_ > 0)` inside `RemoveChildLocked`. -/
theorem dtor_stops_at_drifted_parent_count :
    ∃ k1 P s, VmObject.RemoveChildLocked (demoKernel true) 0 4 = .ok k1 ∧
      k1.objs 1 = some demoChild ∧ demoChild.parent_ = some 0 ∧
      demoChild.mapping_list_ = [] ∧ demoChild.children_list_ = [] ∧
      k1.objs 0 = some P ∧ P.children_list_ = [1] ∧ P.children_list_len_ = 0 ∧
      demoChild.lock_ = P.lock_ ∧
      VmObject_dtor k1 1 = .error (Fault.childrenCountZero, s) := by
  refine ⟨(demoKernel true).setObj 0 (some (VmObject.mk 0 none [7, 8] 2 [1] 0)),
    VmObject.mk 0 none [7, 8] 2 [1] 0,
    ((demoKernel true).setObj 0 (some (VmObject.mk 0 none [7, 8] 2 [1] 0))).setObj 0
      (some (VmObject.mk 0 none [7, 8] 2 [] 0)),
    rfl, rfl, rfl, rfl, rfl, rfl, rfl, rfl, rfl, rfl⟩

/-- C5 (amended): destroying a live object `self` whose own mapping and children lists are
empty returns and frees its address.  If it has a parent `p` (another live object, whose lock
it shares) that lists `self` among its children and whose children count is positive, as it
is whenever the count matches the list, then the parent's count goes down by exactly one,
the entry of `self` is taken out of the parent's children list (so that `self`, listed once,
is absent afterwards), the other children stay, and the parent's mapping list, mapping count,
lock and parent are unchanged.  In both cases every object other than `self` and its parent
is left as it was, and an object without a parent changes no other object at all. -/
theorem dtor_deregisters_from_parent (k : Kernel) (self : ObjId) (c : VmObject)
    (hlive : k.objs self = some c)
    (hm : c.mapping_list_ = []) (hch : c.children_list_ = []) :
    (c.parent_ = none →
      ∃ k2, VmObject_dtor k self = .ok k2 ∧ k2.objs self = none ∧
        (∀ j, j ≠ self → k2.objs j = k.objs j)) ∧
    (∀ p P, c.parent_ = some p → p ≠ self → k.objs p = some P → c.lock_ = P.lock_ →
      self ∈ P.children_list_ → P.children_list_len_ ≠ 0 →
      ∃ k2 P2, VmObject_dtor k self = .ok k2 ∧ k2.objs self = none ∧
        k2.objs p = some P2 ∧
        P2.children_list_ = P.children_list_.erase self ∧
        P2.children_list_len_ + 1 = P.children_list_len_ ∧
        (P.children_list_.Nodup → self ∉ P2.children_list_) ∧
        (∀ x, x ≠ self → (x ∈ P2.children_list_ ↔ x ∈ P.children_list_)) ∧
        P2.mapping_list_ = P.mapping_list_ ∧
        P2.mapping_list_len_ = P.mapping_list_len_ ∧
        P2.lock_ = P.lock_ ∧ P2.parent_ = P.parent_ ∧
        (∀ j, j ≠ self → j ≠ p → k2.objs j = k.objs j) ∧
        (∀ l, k2.held l = k.held l)) := by
  constructor
  · intro hpar
    refine ⟨k.setObj self none, ?_, setObj_self _ _ _, fun j hj => setObj_other _ _ _ _ hj⟩
    simp [VmObject_dtor, hlive, hpar, hm, hch, bind, Except.bind, pure, Except.pure]
  · intro p P hpar hne hP hlock _ hpos
    have hmem : ∀ x, x ≠ self →
        (x ∈ P.children_list_.erase self ↔ x ∈ P.children_list_) := by
      intro x hx
      exact List.mem_erase_of_ne hx
    have hgone : P.children_list_.Nodup → self ∉ P.children_list_.erase self := by
      intro hnodup h
      exact (List.Nodup.mem_erase_iff hnodup).1 h |>.1 rfl
    have hself : ∀ s : Kernel, s.objs self = some c →
        (s.setObj p (some { P with
          children_list_ := P.children_list_.erase self,
          children_list_len_ := P.children_list_len_ - 1 })).objs self = some c := by
      intro s hs
      rw [setObj_other _ _ _ _ (Ne.symm hne)]; exact hs
    cases hheld : k.held c.lock_ with
    | true =>
      have hrem := removeChild_run k p P self hP (by rw [← hlock]; exact hheld) hpos
      refine ⟨(k.setObj p (some { P with
          children_list_ := P.children_list_.erase self,
          children_list_len_ := P.children_list_len_ - 1 })).setObj self none,
        { P with
          children_list_ := P.children_list_.erase self,
          children_list_len_ := P.children_list_len_ - 1 }, ?_,
        setObj_self _ _ _, ?_, rfl, ?_, hgone, hmem, rfl, rfl, rfl, rfl, ?_, fun _ => rfl⟩
      · simp [VmObject_dtor, hlive, hpar, Mutex.IsHeld, hheld, hrem, hself k hlive, hm, hch,
          bind, Except.bind, pure, Except.pure]
      · rw [setObj_other _ _ _ _ hne]; exact setObj_self _ _ _
      · show P.children_list_len_ - 1 + 1 = P.children_list_len_
        omega
      · intro j hj hjp
        rw [setObj_other _ _ _ _ hj, setObj_other _ _ _ _ hjp]
    | false =>
      have hrem := removeChild_run ((k.emit (Event.acquire c.lock_)).setHeld c.lock_ true)
        p P self hP (by rw [← hlock]; simp [Kernel.setHeld]) hpos
      refine ⟨((((k.emit (Event.acquire c.lock_)).setHeld c.lock_ true).setObj p (some { P with
          children_list_ := P.children_list_.erase self,
          children_list_len_ := P.children_list_len_ - 1 })).emit
            (Event.release c.lock_)).setHeld c.lock_ false |>.setObj self none,
        { P with
          children_list_ := P.children_list_.erase self,
          children_list_len_ := P.children_list_len_ - 1 }, ?_,
        setObj_self _ _ _, ?_, rfl, ?_, hgone, hmem, rfl, rfl, rfl, rfl, ?_, ?_⟩
      · simp [VmObject_dtor, hlive, hpar, Mutex.IsHeld, Mutex.Acquire, Mutex.Release, hheld,
          hrem, hm, hch, bind, Except.bind, pure, Except.pure]
        simp [Kernel.setObj, Kernel.setHeld, Kernel.emit, hlive, hm, hch, Ne.symm hne]
      · rw [setObj_other _ _ _ _ hne]
        simp [Kernel.setObj, Kernel.setHeld, Kernel.emit]
      · show P.children_list_len_ - 1 + 1 = P.children_list_len_
        omega
      · intro j hj hjp
        simp [Kernel.setObj, Kernel.setHeld, Kernel.emit, hj, hjp]
      · intro l
        by_cases hl : l = c.lock_
        · subst hl; simp [Kernel.setObj, Kernel.setHeld, Kernel.emit, hheld]
        · simp [Kernel.setObj, Kernel.setHeld, Kernel.emit, hl]

/-- Witness of C5 (amended): in the demo state, destroying the parentless object at
address 6 leaves the root at address 0 as it was, and destroying the child at address 1
returns, frees the address and leaves the root with no child, a children count of 0 and its
two mappings. -/
theorem dtor_deregisters_from_parent_witness :
    (∃ k2, VmObject_dtor (demoKernel false) 6 = .ok k2 ∧ k2.objs 6 = none ∧
      k2.objs 0 = some demoRoot) ∧
    (∃ k2 P2, VmObject_dtor (demoKernel false) 1 = .ok k2 ∧ k2.objs 1 = none ∧
      k2.objs 0 = some P2 ∧ P2.children_list_ = [] ∧ P2.children_list_len_ + 1 = 1 ∧
      1 ∉ P2.children_list_ ∧
      P2.mapping_list_ = [7, 8] ∧ P2.mapping_list_len_ = 2 ∧
      k2.objs 3 = some demoOther) := by
  constructor
  · obtain ⟨k2, hrun, hgone, hrest⟩ :=
      (dtor_deregisters_from_parent (demoKernel false) 6 demoLone rfl rfl rfl).1 rfl
    exact ⟨k2, hrun, hgone, by rw [hrest 0 (by decide)]; rfl⟩
  · obtain ⟨k2, P2, hrun, hgone, hp, hlist, hcount, habsent, _, hml, hmc, _, _, hrest, _⟩ :=
      (dtor_deregisters_from_parent (demoKernel false) 1 demoChild rfl rfl rfl).2
        0 demoRoot rfl (by decide) rfl rfl (by decide) (by decide)
    exact ⟨k2, P2, hrun, hgone, hp, by rw [hlist]; decide, hcount, habsent (by decide),
      hml, hmc, by rw [hrest 3 (by decide) (by decide)]; rfl⟩

/-! ## Counters and lists -/

theorem call_keeps_counts (self : ObjId) (k k1 : Kernel) (o : VmObject) (c : Call)
    (hlive : k.objs self = some o) (hinv : o.countsTrack)
    (hreg : c.namesRegistered o = true) (hrun : c.run self k = .ok k1) :
    ∃ o1, k1.objs self = some o1 ∧ o1.countsTrack := by
  obtain ⟨hmc, hcc⟩ := hinv
  cases hheld : k.held o.lock_ with
  | false =>
    cases c <;>
      simp [Call.run, VmObject.AddMappingLocked, VmObject.RemoveMappingLocked,
        VmObject.AddChildLocked, VmObject.RemoveChildLocked, VmObject.RangeChangeUpdateLocked,
        hlive, Mutex.IsHeld, hheld] at hrun
  | true =>
    cases c with
    | AddMappingLocked r =>
      simp only [Call.run, addMapping_run k self o r hlive hheld, Except.ok.injEq] at hrun
      subst hrun
      refine ⟨_, setObj_self _ _ _, ?_, hcc⟩
      simp only [List.length_cons, U32] at *
      omega
    | RemoveMappingLocked r =>
      have hmem : r ∈ o.mapping_list_ := by simpa [Call.namesRegistered] using hreg
      by_cases hz : o.mapping_list_len_ = 0
      · simp [Call.run, removeMapping_stop k self o r hlive hheld hz] at hrun
      · simp only [Call.run, removeMapping_run k self o r hlive hheld hz,
          Except.ok.injEq] at hrun
        subst hrun
        refine ⟨_, setObj_self _ _ _, ?_, hcc⟩
        have hlen := List.length_pos_of_mem hmem
        simp only [List.length_erase_of_mem hmem, U32] at *
        omega
    | AddChildLocked c =>
      simp only [Call.run, addChild_run k self o c hlive hheld, Except.ok.injEq] at hrun
      subst hrun
      refine ⟨_, setObj_self _ _ _, hmc, ?_⟩
      simp only [List.length_cons, U32] at *
      omega
    | RemoveChildLocked c =>
      have hmem : c ∈ o.children_list_ := by simpa [Call.namesRegistered] using hreg
      by_cases hz : o.children_list_len_ = 0
      · simp [Call.run, removeChild_stop k self o c hlive hheld hz] at hrun
      · simp only [Call.run, removeChild_run k self o c hlive hheld hz,
          Except.ok.injEq] at hrun
        subst hrun
        refine ⟨_, setObj_self _ _ _, hmc, ?_⟩
        have hlen := List.length_pos_of_mem hmem
        simp only [List.length_erase_of_mem hmem, U32] at *
        omega
    | RangeChangeUpdateLocked offset len =>
      simp only [Call.run, rangeChange_run k self o offset len hlive hheld,
        Except.ok.injEq] at hrun
      subst hrun
      exact ⟨o, hlive, hmc, hcc⟩

theorem runCalls_keeps_counts (self : ObjId) (calls : List Call) :
    ∀ (k kn : Kernel) (o : VmObject), k.objs self = some o → o.countsTrack →
      removalsRegistered self k calls = true → runCalls self k calls = .ok kn →
      ∃ o2, kn.objs self = some o2 ∧ o2.countsTrack := by
  induction calls with
  | nil =>
    intro k kn o hlive hinv _ hrun
    simp only [runCalls, Except.ok.injEq] at hrun
    subst hrun
    exact ⟨o, hlive, hinv⟩
  | cons c cs ih =>
    intro k kn o hlive hinv hreg hrun
    simp only [removalsRegistered, hlive, Bool.and_eq_true] at hreg
    simp only [runCalls] at hrun
    cases hstep : c.run self k with
    | error e => simp [hstep] at hrun
    | ok k1 =>
      simp only [hstep] at hrun hreg
      obtain ⟨o1, hlive1, hinv1⟩ := call_keeps_counts self k k1 o c hlive hinv hreg.1 hstep
      exact ih k1 kn o1 hlive1 hinv1 hreg.2 hrun

theorem runCalls_addMappings (self : ObjId) (ms : List MappingId) :
    ∀ (k : Kernel) (o : VmObject), k.objs self = some o → k.held o.lock_ = true →
      o.mapping_list_len_ < U32 →
      ∃ kn o2, runCalls self k (ms.map Call.AddMappingLocked) = .ok kn ∧
        kn.objs self = some o2 ∧
        o2.mapping_list_.length = o.mapping_list_.length + ms.length ∧
        o2.mapping_list_len_ = (o.mapping_list_len_ + ms.length) % U32 := by
  induction ms with
  | nil =>
    intro k o hlive _ hlt
    exact ⟨k, o, rfl, hlive, rfl, (Nat.mod_eq_of_lt hlt).symm⟩
  | cons m t ih =>
    intro k o hlive hheld hlt
    obtain ⟨kn, o2, hrun, hobj, hlen, hcnt⟩ := ih
      (k.setObj self (some { o with
        mapping_list_ := m :: o.mapping_list_,
        mapping_list_len_ := (o.mapping_list_len_ + 1) % U32 }))
      { o with mapping_list_ := m :: o.mapping_list_,
               mapping_list_len_ := (o.mapping_list_len_ + 1) % U32 }
      (setObj_self _ _ _) hheld (Nat.mod_lt _ (by decide))
    refine ⟨kn, o2, ?_, hobj, ?_, ?_⟩
    · simp only [List.map_cons, runCalls, Call.run, addMapping_run k self o m hlive hheld]
      exact hrun
    · rw [hlen]
      simp only [List.length_cons]
      omega
    · rw [hcnt]
      simp only [U32, List.length_cons]
      omega

theorem runCalls_addRange (n : Nat) :
    ∃ kn o2, runCalls 0 rootKernel ((List.range n).map Call.AddMappingLocked) = .ok kn ∧
      kn.objs 0 = some o2 ∧ o2.mapping_list_.length = n ∧
      o2.mapping_list_len_ = n % U32 := by
  obtain ⟨kn, o2, hrun, hobj, hlen, hcnt⟩ := runCalls_addMappings 0 (List.range n)
    rootKernel freshRoot rfl rfl (by decide)
  refine ⟨kn, o2, hrun, hobj, ?_, ?_⟩
  · rw [hlen, List.length_range]; simp [freshRoot]
  · rw [hcnt, List.length_range]; simp [freshRoot]

/-- C6, as stated, fails in two ways.  From the object constructed at address 0, with its
lock acquired: (1) adding mapping 1 and then removing mapping 2, which was never registered,
completes without a failed assertion and leaves the count at 0 with mapping 1 still listed;
likewise for children; (2) adding the 4294967296 mappings `0, 1, ...` completes and leaves
the 32-bit count at 0 with 4294967296 entries listed. -/
theorem counts_drift_from_lists :
    VmObject_ctor emptyKernel 0 none = .ok (emptyKernel.setObj 0 (some freshRoot)) ∧
    Mutex.Acquire (emptyKernel.setObj 0 (some freshRoot)) 0 = .ok rootKernel ∧
    (∃ kn o, runCalls 0 rootKernel [Call.AddMappingLocked 1, Call.RemoveMappingLocked 2]
        = .ok kn ∧
      kn.objs 0 = some o ∧ o.mapping_list_ = [1] ∧ o.mapping_list_len_ = 0) ∧
    (∃ kn o, runCalls 0 rootKernel [Call.AddChildLocked 1, Call.RemoveChildLocked 2]
        = .ok kn ∧
      kn.objs 0 = some o ∧ o.children_list_ = [1] ∧ o.children_list_len_ = 0) ∧
    (∃ kn o, runCalls 0 rootKernel ((List.range 4294967296).map Call.AddMappingLocked)
        = .ok kn ∧
      kn.objs 0 = some o ∧ o.mapping_list_.length = 4294967296 ∧
      o.mapping_list_len_ = 0) := by
  refine ⟨rfl, rfl, ⟨_, _, rfl, rfl, rfl, rfl⟩, ⟨_, _, rfl, rfl, rfl, rfl⟩, ?_⟩
  obtain ⟨kn, o2, hrun, hobj, hlen, hcnt⟩ := runCalls_addRange 4294967296
  exact ⟨kn, o2, hrun, hobj, hlen, hcnt.trans (by decide)⟩

/-- C6 (amended): start from an object as the constructor leaves it and make any sequence of
`AddMappingLocked`, `RemoveMappingLocked`, `AddChildLocked`, `RemoveChildLocked` and
`RangeChangeUpdateLocked` calls that completes without a failed assertion and in which every
removal names an entry registered at the time of the call.  Then the object is still live, its
mapping count equals the number of entries in the mapping list modulo `2 ^ 32` and its
children count equals the number of entries in the children list modulo `2 ^ 32`; each count
equals the number of entries outright while fewer than `2 ^ 32` entries are listed. -/
theorem counts_track_lists (k kc k0 kn : Kernel) (self : ObjId) (parent : Option ObjId)
    (calls : List Call)
    (hctor : VmObject_ctor k self parent = .ok kc)
    (hstart : k0.objs self = kc.objs self)
    (hreg : removalsRegistered self k0 calls = true)
    (hrun : runCalls self k0 calls = .ok kn) :
    ∃ o, kn.objs self = some o ∧
      o.mapping_list_len_ = o.mapping_list_.length % U32 ∧
      o.children_list_len_ = o.children_list_.length % U32 ∧
      (o.mapping_list_.length < U32 → o.mapping_list_len_ = o.mapping_list_.length) ∧
      (o.children_list_.length < U32 → o.children_list_len_ = o.children_list_.length) := by
  have hfresh : ∃ o0, k0.objs self = some o0 ∧ o0.countsTrack := by
    rw [hstart]
    cases parent with
    | none =>
      simp only [VmObject_ctor, Except.ok.injEq] at hctor
      subst hctor
      exact ⟨_, setObj_self _ _ _, rfl, rfl⟩
    | some p =>
      cases hp : k.objs p with
      | none => simp [VmObject_ctor, hp] at hctor
      | some P =>
        simp only [VmObject_ctor, hp, Except.ok.injEq] at hctor
        subst hctor
        exact ⟨_, setObj_self _ _ _, rfl, rfl⟩
  obtain ⟨o0, hlive0, hinv0⟩ := hfresh
  obtain ⟨o, hlive, hm, hc⟩ := runCalls_keeps_counts self calls k0 kn o0 hlive0 hinv0 hreg hrun
  refine ⟨o, hlive, hm, hc, ?_, ?_⟩
  · intro hlt; rw [hm, Nat.mod_eq_of_lt hlt]
  · intro hlt; rw [hc, Nat.mod_eq_of_lt hlt]

/-- Witness of C6 (amended): the object constructed at address 0, with its lock acquired,
after adding mappings 1 and 2 and child 5, a range change, and removing mapping 1 and child 5,
has counters that agree with its lists. -/
theorem counts_track_lists_witness :
    ∃ kn, runCalls 0 rootKernel
        [Call.AddMappingLocked 1, Call.AddMappingLocked 2, Call.AddChildLocked 5,
         Call.RangeChangeUpdateLocked 100 50, Call.RemoveMappingLocked 1,
         Call.RemoveChildLocked 5] = .ok kn ∧
      ∃ o, kn.objs 0 = some o ∧
        o.mapping_list_len_ = o.mapping_list_.length % U32 ∧
        o.children_list_len_ = o.children_list_.length % U32 ∧
        (o.mapping_list_.length < U32 → o.mapping_list_len_ = o.mapping_list_.length) ∧
        (o.children_list_.length < U32 → o.children_list_len_ = o.children_list_.length) :=
  ⟨_, rfl, counts_track_lists emptyKernel (emptyKernel.setObj 0 (some freshRoot)) rootKernel _
    0 none
    [Call.AddMappingLocked 1, Call.AddMappingLocked 2, Call.AddChildLocked 5,
     Call.RangeChangeUpdateLocked 100 50, Call.RemoveMappingLocked 1,
     Call.RemoveChildLocked 5] rfl rfl rfl rfl⟩

/-! ## Lock sharing -/

theorem buildChain_clones (rest : List ObjId) :
    ∀ (k : Kernel) (p : ObjId) (P : VmObject), k.objs p = some P → p ∉ rest → rest.Nodup →
      ∃ kn, buildChain k (some p) rest = .ok kn ∧
        (∀ j, j ∉ rest → kn.objs j = k.objs j) ∧
        (∀ i ∈ rest, ∃ o, kn.objs i = some o ∧ o.lock_ = P.lock_ ∧ o.parent_ ≠ none) := by
  induction rest with
  | nil =>
    intro k p P _ _ _
    exact ⟨k, rfl, fun _ _ => rfl, fun i hi => by cases hi⟩
  | cons i t ih =>
    intro k p P hP hp hnd
    have hpi : p ≠ i := fun h => hp (h ▸ List.mem_cons_self _ _)
    have hpt : p ∉ t := fun h => hp (List.mem_cons_of_mem _ h)
    obtain ⟨hit, hndt⟩ := List.nodup_cons.1 hnd
    obtain ⟨kn, hrun, hframe, hlocks⟩ := ih
      (k.setObj i (some
        { lock_ := P.lock_, parent_ := some p,
          mapping_list_ := [], mapping_list_len_ := 0,
          children_list_ := [], children_list_len_ := 0 })) i
      { lock_ := P.lock_, parent_ := some p,
        mapping_list_ := [], mapping_list_len_ := 0,
        children_list_ := [], children_list_len_ := 0 }
      (setObj_self _ _ _) hit hndt
    refine ⟨kn, ?_, ?_, ?_⟩
    · simp only [buildChain, VmObject_ctor, hP, VmObject.lock_ref]
      exact hrun
    · intro j hj
      have hji : j ≠ i := fun h => hj (h ▸ List.mem_cons_self _ _)
      have hjt : j ∉ t := fun h => hj (List.mem_cons_of_mem _ h)
      rw [hframe j hjt, setObj_other _ _ _ _ hji]
    · intro j hj
      rcases List.mem_cons.1 hj with rfl | hjt
      · refine ⟨VmObject.mk P.lock_ (some p) [] 0 [] 0, ?_, rfl, ?_⟩
        · rw [hframe j hit]; exact setObj_self _ _ _
        · simp
      · exact hlocks j hjt

/-- C7: construct the clone chain `root, O1, ..., On` at pairwise distinct addresses, `root`
without a parent and each further object with its predecessor as parent.  All constructors
return; every object of the chain uses the mutex `root`, which is the root's own
`local_lock_`; the root has no parent and uses its own mutex, and every further object has a
parent and uses a mutex other than its own `local_lock_`. -/
theorem clone_chain_shares_root_lock (k : Kernel) (root : ObjId) (rest : List ObjId)
    (hdistinct : (root :: rest).Nodup) :
    ∃ kn, buildChain k none (root :: rest) = .ok kn ∧
      (∀ i ∈ root :: rest, ∃ o, kn.objs i = some o ∧ o.lock_ = root) ∧
      (∃ o, kn.objs root = some o ∧ o.parent_ = none ∧ o.lock_ = root) ∧
      (∀ i ∈ rest, ∃ o, kn.objs i = some o ∧ o.parent_ ≠ none ∧ o.lock_ ≠ i) := by
  obtain ⟨hroot, hnd⟩ := List.nodup_cons.1 hdistinct
  obtain ⟨kn, hrun, hframe, hlocks⟩ := buildChain_clones rest
    (k.setObj root (some
      { lock_ := root, parent_ := none,
        mapping_list_ := [], mapping_list_len_ := 0,
        children_list_ := [], children_list_len_ := 0 })) root
    { lock_ := root, parent_ := none,
      mapping_list_ := [], mapping_list_len_ := 0,
      children_list_ := [], children_list_len_ := 0 }
    (setObj_self _ _ _) hroot hnd
  have hrootobj : kn.objs root = some
      { lock_ := root, parent_ := none,
        mapping_list_ := [], mapping_list_len_ := 0,
        children_list_ := [], children_list_len_ := 0 } := by
    rw [hframe root hroot]; exact setObj_self _ _ _
  refine ⟨kn, ?_, ?_, ⟨_, hrootobj, rfl, rfl⟩, ?_⟩
  · simp only [buildChain, VmObject_ctor]
    exact hrun
  · intro i hi
    rcases List.mem_cons.1 hi with rfl | hit
    · exact ⟨_, hrootobj, rfl⟩
    · obtain ⟨o, ho, hl, _⟩ := hlocks i hit
      exact ⟨o, ho, hl⟩
  · intro i hi
    obtain ⟨o, ho, hl, hp⟩ := hlocks i hi
    refine ⟨o, ho, hp, ?_⟩
    rw [hl]
    intro h
    have h2 : root = i := h
    exact hroot (h2 ▸ hi)

/-- Witness of C7: the chain constructed at addresses 10, 11, 12 in the empty kernel. -/
theorem clone_chain_shares_root_lock_witness :
    ∃ kn, buildChain emptyKernel none [10, 11, 12] = .ok kn ∧
      (∀ i ∈ [10, 11, 12], ∃ o, kn.objs i = some o ∧ o.lock_ = 10) ∧
      (∃ o, kn.objs 10 = some o ∧ o.parent_ = none ∧ o.lock_ = 10) ∧
      (∀ i ∈ [11, 12], ∃ o, kn.objs i = some o ∧ o.parent_ ≠ none ∧ o.lock_ ≠ i) :=
  clone_chain_shares_root_lock emptyKernel 10 [11, 12] (by decide)

/-! ## Fatal assertions -/

theorem removeChild_cases (k : Kernel) (p c : ObjId) :
    (∃ f s, VmObject.RemoveChildLocked k p c = .error (f, s) ∧ f.isAssertion = true) ∨
    (∃ P P2, k.objs p = some P ∧
      VmObject.RemoveChildLocked k p c = .ok (k.setObj p (some P2))) := by
  cases hP : k.objs p with
  | none =>
    exact Or.inl ⟨Fault.canary, k, by simp [VmObject.RemoveChildLocked, hP], rfl⟩
  | some P =>
    cases hheld : k.held P.lock_ with
    | false =>
      exact Or.inl ⟨Fault.lockNotHeld, k,
        by simp [VmObject.RemoveChildLocked, hP, Mutex.IsHeld, hheld], rfl⟩
    | true =>
      by_cases hz : P.children_list_len_ = 0
      · exact Or.inl ⟨_, _, removeChild_stop k p P c hP hheld hz, rfl⟩
      · exact Or.inr ⟨P, _, rfl, removeChild_run k p P c hP hheld hz⟩

theorem dtor_tail_stops (k1 : Kernel) (self : ObjId) (o : VmObject)
    (hne : o.mapping_list_ ≠ [] ∨ o.children_list_ ≠ []) :
    ∃ f s, (if o.mapping_list_ ≠ [] then (.error (Fault.mappingListNotEmpty, k1) : Run Kernel)
        else if o.children_list_ ≠ [] then .error (Fault.childrenListNotEmpty, k1)
        else .ok (k1.setObj self none)) = .error (f, s) ∧ f.isAssertion = true := by
  by_cases hm : o.mapping_list_ = []
  · have hc : o.children_list_ ≠ [] := by
      rcases hne with h | h
      · exact absurd hm h
      · exact h
    exact ⟨Fault.childrenListNotEmpty, k1, by simp [hm, hc], rfl⟩
  · exact ⟨Fault.mappingListNotEmpty, k1, by simp [hm], rfl⟩

/-- C8: destroying a live object (which is not its own parent) whose mapping list or children
list is not empty stops at a failed assertion; the destructor returns only when both lists
are empty. -/
theorem dtor_stops_unless_lists_empty (k : Kernel) (self : ObjId) (o : VmObject)
    (hlive : k.objs self = some o) (hpar : o.parent_ ≠ some self) :
    ((o.mapping_list_ ≠ [] ∨ o.children_list_ ≠ []) →
      ∃ f s, VmObject_dtor k self = .error (f, s) ∧ f.isAssertion = true) ∧
    (∀ k2, VmObject_dtor k self = .ok k2 →
      o.mapping_list_ = [] ∧ o.children_list_ = []) := by
  have hstop : (o.mapping_list_ ≠ [] ∨ o.children_list_ ≠ []) →
      ∃ f s, VmObject_dtor k self = .error (f, s) ∧ f.isAssertion = true := by
    intro hne
    cases hp : o.parent_ with
    | none =>
      obtain ⟨f, s, h, hf⟩ := dtor_tail_stops k self o hne
      refine ⟨f, s, ?_, hf⟩
      simp only [VmObject_dtor, hlive, hp, bind, Except.bind, pure, Except.pure]
      exact h
    | some p =>
      have hps : p ≠ self := fun h => hpar (by rw [hp, h])
      cases hheld : k.held o.lock_ with
      | true =>
        rcases removeChild_cases k p self with ⟨f, s, h, hf⟩ | ⟨P, P2, _, h⟩
        · refine ⟨f, s, ?_, hf⟩
          simp [VmObject_dtor, hlive, hp, Mutex.IsHeld, hheld, h, bind, Except.bind, pure,
            Except.pure]
        · have hself : (k.setObj p (some P2)).objs self = some o := by
            rw [setObj_other _ _ _ _ (Ne.symm hps)]; exact hlive
          obtain ⟨f, s, h2, hf⟩ := dtor_tail_stops (k.setObj p (some P2)) self o hne
          refine ⟨f, s, ?_, hf⟩
          simp only [VmObject_dtor, hlive, hp, Mutex.IsHeld, hheld, h, bind, Except.bind,
            pure, Except.pure, Bool.not_true, Bool.false_eq_true, if_false, hself]
          exact h2
      | false =>
        rcases removeChild_cases ((k.emit (Event.acquire o.lock_)).setHeld o.lock_ true)
          p self with ⟨f, s, h, hf⟩ | ⟨P, P2, _, h⟩
        · refine ⟨f, s, ?_, hf⟩
          simp [VmObject_dtor, hlive, hp, Mutex.IsHeld, Mutex.Acquire, hheld, h, bind,
            Except.bind, pure, Except.pure]
        · have hself : (((((k.emit (Event.acquire o.lock_)).setHeld o.lock_ true).setObj p
              (some P2)).emit (Event.release o.lock_)).setHeld o.lock_ false).objs self
                = some o := by
            simp [Kernel.setObj, Kernel.setHeld, Kernel.emit, Ne.symm hps, hlive]
          obtain ⟨f, s, h2, hf⟩ := dtor_tail_stops
            (((((k.emit (Event.acquire o.lock_)).setHeld o.lock_ true).setObj p
              (some P2)).emit (Event.release o.lock_)).setHeld o.lock_ false) self o hne
          refine ⟨f, s, ?_, hf⟩
          have hrel : Mutex.Release
              (((k.emit (Event.acquire o.lock_)).setHeld o.lock_ true).setObj p (some P2))
              o.lock_ = .ok (((((k.emit (Event.acquire o.lock_)).setHeld o.lock_ true).setObj p
                (some P2)).emit (Event.release o.lock_)).setHeld o.lock_ false) := by
            simp [Mutex.Release, Mutex.IsHeld, Kernel.setObj, Kernel.setHeld, Kernel.emit]
          simp only [VmObject_dtor, hlive, hp, Mutex.IsHeld, Mutex.Acquire, hheld, h, hrel,
            bind, Except.bind, pure, Except.pure, Bool.not_false, if_true,
            Bool.false_eq_true, if_false, hself]
          exact h2
  refine ⟨hstop, ?_⟩
  intro k2 hok
  by_contra hcon
  have hne : o.mapping_list_ ≠ [] ∨ o.children_list_ ≠ [] := by
    by_cases hm : o.mapping_list_ = []
    · right
      intro hc
      exact hcon ⟨hm, hc⟩
    · exact Or.inl hm
  obtain ⟨f, s, herr, _⟩ := hstop hne
  rw [herr] at hok
  cases hok

/-- Witness of C8: in the demo state the root at address 0 has two mappings and a child, and
destroying it stops at the assertion on the mapping list; the child at address 1 has empty
lists, and destroying it returns. -/
theorem dtor_stops_unless_lists_empty_witness :
    VmObject_dtor (demoKernel false) 0
      = .error (Fault.mappingListNotEmpty, demoKernel false) ∧
    (∃ f s, VmObject_dtor (demoKernel false) 0 = .error (f, s) ∧ f.isAssertion = true) ∧
    (∃ k2, VmObject_dtor (demoKernel false) 1 = .ok k2) ∧
    demoChild.mapping_list_ = [] ∧ demoChild.children_list_ = [] := by
  have h0 := dtor_stops_unless_lists_empty (demoKernel false) 0 demoRoot rfl (by decide)
  have h1 := dtor_stops_unless_lists_empty (demoKernel false) 1 demoChild rfl (by decide)
  have hrun : ∃ k2, VmObject_dtor (demoKernel false) 1 = .ok k2 := ⟨_, rfl⟩
  obtain ⟨k2, hk2⟩ := hrun
  exact ⟨rfl, h0.1 (Or.inl (by decide)), ⟨k2, hk2⟩, h1.2 k2 hk2⟩

/-- C9, as stated, fails while other entries keep the count positive.  In the demo state,
with the lock of the first tree held, the root at address 0 lists mappings 7 and 8 and child
1.  Removing mapping 9 (registered with the object at address 3, not with the root) returns
with the root's count lowered to 1 and both mappings still listed; removing mapping 7 twice
returns both times, leaving count 0 with mapping 8 still listed; removing child 4 (a child of
the object at address 3) returns with the root's children count lowered to 0 and child 1 still
listed. -/
theorem remove_unregistered_returns :
    9 ∉ demoRoot.mapping_list_ ∧ 4 ∉ demoRoot.children_list_ ∧
    (∃ k2 o2, VmObject.RemoveMappingLocked (demoKernel true) 0 9 = .ok k2 ∧
      k2.objs 0 = some o2 ∧ o2.mapping_list_ = [7, 8] ∧ o2.mapping_list_len_ = 1) ∧
    (∃ k1 k2 o2, VmObject.RemoveMappingLocked (demoKernel true) 0 7 = .ok k1 ∧
      VmObject.RemoveMappingLocked k1 0 7 = .ok k2 ∧
      k2.objs 0 = some o2 ∧ o2.mapping_list_ = [8] ∧ o2.mapping_list_len_ = 0) ∧
    (∃ k2 o2, VmObject.RemoveChildLocked (demoKernel true) 0 4 = .ok k2 ∧
      k2.objs 0 = some o2 ∧ o2.children_list_ = [1] ∧ o2.children_list_len_ = 0) := by
  refine ⟨by decide, by decide, ⟨_, _, rfl, rfl, rfl, rfl⟩, ⟨_, _, _, rfl, rfl, rfl, rfl, rfl⟩,
    ⟨_, _, rfl, rfl, rfl, rfl⟩⟩

/-- C9 (amended): with the object live and its lock held, removing a mapping or a child that
is not registered stops at the assertion on the respective count, without returning and
without changing the state, whenever that count is zero.  In particular, when the count is
one, a removal followed by a second removal of the same entry stops at that assertion. -/
theorem remove_at_zero_count_stops (k : Kernel) (self : ObjId) (o : VmObject)
    (hlive : k.objs self = some o) (hheld : k.held o.lock_ = true) :
    (∀ r, r ∉ o.mapping_list_ → o.mapping_list_len_ = 0 →
      VmObject.RemoveMappingLocked k self r = .error (Fault.mappingCountZero, k)) ∧
    (∀ c, c ∉ o.children_list_ → o.children_list_len_ = 0 →
      VmObject.RemoveChildLocked k self c = .error (Fault.childrenCountZero, k)) ∧
    (∀ r, o.mapping_list_len_ = 1 →
      ∃ k1 s, VmObject.RemoveMappingLocked k self r = .ok k1 ∧
        VmObject.RemoveMappingLocked k1 self r = .error (Fault.mappingCountZero, s)) ∧
    (∀ c, o.children_list_len_ = 1 →
      ∃ k1 s, VmObject.RemoveChildLocked k self c = .ok k1 ∧
        VmObject.RemoveChildLocked k1 self c = .error (Fault.childrenCountZero, s)) := by
  refine ⟨?_, ?_, ?_, ?_⟩
  · intro r hr hz
    rw [removeMapping_stop k self o r hlive hheld hz, List.erase_of_not_mem hr,
      setObj_same k self o hlive]
  · intro c hc hz
    rw [removeChild_stop k self o c hlive hheld hz, List.erase_of_not_mem hc,
      setObj_same k self o hlive]
  · intro r h1
    exact ⟨_, _, removeMapping_run k self o r hlive hheld (by omega),
      removeMapping_stop (k.setObj self (some
        { o with mapping_list_ := o.mapping_list_.erase r,
                 mapping_list_len_ := o.mapping_list_len_ - 1 })) self
        { o with mapping_list_ := o.mapping_list_.erase r,
                 mapping_list_len_ := o.mapping_list_len_ - 1 } r
        (setObj_self _ _ _) hheld (by show o.mapping_list_len_ - 1 = 0; omega)⟩
  · intro c h1
    exact ⟨_, _, removeChild_run k self o c hlive hheld (by omega),
      removeChild_stop (k.setObj self (some
        { o with children_list_ := o.children_list_.erase c,
                 children_list_len_ := o.children_list_len_ - 1 })) self
        { o with children_list_ := o.children_list_.erase c,
                 children_list_len_ := o.children_list_len_ - 1 } c
        (setObj_self _ _ _) hheld (by show o.children_list_len_ - 1 = 0; omega)⟩

/-- Witness of C9 (amended): in the demo state with the lock held, the child at address 1
counts no mapping and no child, so removing mapping 7 or child 5 from it stops; the root at
address 0 counts one child, so removing child 1 twice stops at the second removal; with the
lock of the second tree held as well, removing its one mapping 9 twice stops at the second
removal. -/
theorem remove_at_zero_count_stops_witness :
    VmObject.RemoveMappingLocked (demoKernel true) 1 7
      = .error (Fault.mappingCountZero, demoKernel true) ∧
    VmObject.RemoveChildLocked (demoKernel true) 1 5
      = .error (Fault.childrenCountZero, demoKernel true) ∧
    (∃ k1 s, VmObject.RemoveChildLocked (demoKernel true) 0 1 = .ok k1 ∧
      VmObject.RemoveChildLocked k1 0 1 = .error (Fault.childrenCountZero, s)) ∧
    (∃ k1 s, VmObject.RemoveMappingLocked ((demoKernel true).setHeld 3 true) 3 9 = .ok k1 ∧
      VmObject.RemoveMappingLocked k1 3 9 = .error (Fault.mappingCountZero, s)) :=
  ⟨(remove_at_zero_count_stops (demoKernel true) 1 demoChild rfl rfl).1 7
      (by decide) rfl,
    (remove_at_zero_count_stops (demoKernel true) 1 demoChild rfl rfl).2.1 5
      (by decide) rfl,
    (remove_at_zero_count_stops (demoKernel true) 0 demoRoot rfl rfl).2.2.2 1 rfl,
    (remove_at_zero_count_stops ((demoKernel true).setHeld 3 true) 3 demoOther
      rfl rfl).2.2.1 9 rfl⟩

/-- C10: with the object live and its lock not held, each of `AddMappingLocked`,
`RemoveMappingLocked`, `AddChildLocked`, `RemoveChildLocked` and `RangeChangeUpdateLocked`
stops at `DEBUG_ASSERT(lock_.IsHeld())` in the very state it was called in: no list and no
count has been modified and no mapping or child has been called. -/
theorem locked_operations_assert_lock_held (k : Kernel) (self : ObjId) (o : VmObject)
    (hlive : k.objs self = some o) (hfree : k.held o.lock_ = false) :
    (∀ r, VmObject.AddMappingLocked k self r = .error (Fault.lockNotHeld, k)) ∧
    (∀ r, VmObject.RemoveMappingLocked k self r = .error (Fault.lockNotHeld, k)) ∧
    (∀ c, VmObject.AddChildLocked k self c = .error (Fault.lockNotHeld, k)) ∧
    (∀ c, VmObject.RemoveChildLocked k self c = .error (Fault.lockNotHeld, k)) ∧
    (∀ offset len,
      VmObject.RangeChangeUpdateLocked k self offset len = .error (Fault.lockNotHeld, k)) := by
  refine ⟨?_, ?_, ?_, ?_, ?_⟩
  · intro r; simp [VmObject.AddMappingLocked, hlive, Mutex.IsHeld, hfree]
  · intro r; simp [VmObject.RemoveMappingLocked, hlive, Mutex.IsHeld, hfree]
  · intro c; simp [VmObject.AddChildLocked, hlive, Mutex.IsHeld, hfree]
  · intro c; simp [VmObject.RemoveChildLocked, hlive, Mutex.IsHeld, hfree]
  · intro offset len; simp [VmObject.RangeChangeUpdateLocked, hlive, Mutex.IsHeld, hfree]

/-- Witness of C10: in the demo state with the lock not held, the five operations on the
root at address 0 stop at the lock assertion, with the demo state untouched. -/
theorem locked_operations_assert_lock_held_witness :
    VmObject.AddMappingLocked (demoKernel false) 0 5
      = .error (Fault.lockNotHeld, demoKernel false) ∧
    VmObject.RemoveMappingLocked (demoKernel false) 0 7
      = .error (Fault.lockNotHeld, demoKernel false) ∧
    VmObject.AddChildLocked (demoKernel false) 0 2
      = .error (Fault.lockNotHeld, demoKernel false) ∧
    VmObject.RemoveChildLocked (demoKernel false) 0 1
      = .error (Fault.lockNotHeld, demoKernel false) ∧
    VmObject.RangeChangeUpdateLocked (demoKernel false) 0 100 50
      = .error (Fault.lockNotHeld, demoKernel false) :=
  have h := locked_operations_assert_lock_held (demoKernel false) 0 demoRoot rfl rfl
  ⟨h.1 5, h.2.1 7, h.2.2.1 2, h.2.2.2.1 1, h.2.2.2.2 100 50⟩

/-! ## Queries -/

theorem isCowClone_run (k : Kernel) (self : ObjId) (o : VmObject)
    (hlive : k.objs self = some o) (hfree : k.held o.lock_ = false) :
    VmObject.is_cow_clone k self =
      .ok (o.parent_.isSome,
        (((k.emit (Event.acquire o.lock_)).setHeld o.lock_ true).emit
          (Event.release o.lock_)).setHeld o.lock_ false) := by
  simp [VmObject.is_cow_clone, hlive, Mutex.Acquire, Mutex.Release, Mutex.IsHeld, hfree,
    Kernel.setHeld, Kernel.emit, bind, Except.bind, pure, Except.pure]

theorem ctor_parent (k kc : Kernel) (self : ObjId) (parent : Option ObjId)
    (hctor : VmObject_ctor k self parent = .ok kc) :
    ∃ o, kc.objs self = some o ∧ o.parent_ = parent := by
  cases parent with
  | none =>
    simp only [VmObject_ctor, Except.ok.injEq] at hctor
    subst hctor
    exact ⟨_, setObj_self _ _ _, rfl⟩
  | some p =>
    cases hp : k.objs p with
    | none => simp [VmObject_ctor, hp] at hctor
    | some P =>
      simp only [VmObject_ctor, hp, Except.ok.injEq] at hctor
      subst hctor
      exact ⟨_, setObj_self _ _ _, rfl⟩

theorem call_keeps_parent (self : ObjId) (k k1 : Kernel) (o : VmObject) (c : Call)
    (hlive : k.objs self = some o) (hrun : c.run self k = .ok k1) :
    ∃ o1, k1.objs self = some o1 ∧ o1.parent_ = o.parent_ ∧ o1.lock_ = o.lock_ := by
  cases hheld : k.held o.lock_ with
  | false =>
    cases c <;>
      simp [Call.run, VmObject.AddMappingLocked, VmObject.RemoveMappingLocked,
        VmObject.AddChildLocked, VmObject.RemoveChildLocked, VmObject.RangeChangeUpdateLocked,
        hlive, Mutex.IsHeld, hheld] at hrun
  | true =>
    cases c with
    | AddMappingLocked r =>
      simp only [Call.run, addMapping_run k self o r hlive hheld, Except.ok.injEq] at hrun
      subst hrun
      exact ⟨_, setObj_self _ _ _, rfl, rfl⟩
    | RemoveMappingLocked r =>
      by_cases hz : o.mapping_list_len_ = 0
      · simp [Call.run, removeMapping_stop k self o r hlive hheld hz] at hrun
      · simp only [Call.run, removeMapping_run k self o r hlive hheld hz,
          Except.ok.injEq] at hrun
        subst hrun
        exact ⟨_, setObj_self _ _ _, rfl, rfl⟩
    | AddChildLocked c =>
      simp only [Call.run, addChild_run k self o c hlive hheld, Except.ok.injEq] at hrun
      subst hrun
      exact ⟨_, setObj_self _ _ _, rfl, rfl⟩
    | RemoveChildLocked c =>
      by_cases hz : o.children_list_len_ = 0
      · simp [Call.run, removeChild_stop k self o c hlive hheld hz] at hrun
      · simp only [Call.run, removeChild_run k self o c hlive hheld hz,
          Except.ok.injEq] at hrun
        subst hrun
        exact ⟨_, setObj_self _ _ _, rfl, rfl⟩
    | RangeChangeUpdateLocked offset len =>
      simp only [Call.run, rangeChange_run k self o offset len hlive hheld,
        Except.ok.injEq] at hrun
      subst hrun
      exact ⟨o, hlive, rfl, rfl⟩

theorem runCalls_keeps_parent (self : ObjId) (calls : List Call) :
    ∀ (k kn : Kernel) (o : VmObject), k.objs self = some o →
      runCalls self k calls = .ok kn →
      ∃ o2, kn.objs self = some o2 ∧ o2.parent_ = o.parent_ ∧ o2.lock_ = o.lock_ := by
  induction calls with
  | nil =>
    intro k kn o hlive hrun
    simp only [runCalls, Except.ok.injEq] at hrun
    subst hrun
    exact ⟨o, hlive, rfl, rfl⟩
  | cons c cs ih =>
    intro k kn o hlive hrun
    simp only [runCalls] at hrun
    cases hstep : c.run self k with
    | error e => simp [hstep] at hrun
    | ok k1 =>
      simp only [hstep] at hrun
      obtain ⟨o1, hlive1, hp1, hl1⟩ := call_keeps_parent self k k1 o c hlive hstep
      obtain ⟨o2, hlive2, hp2, hl2⟩ := ih k1 kn o1 hlive1 hrun
      exact ⟨o2, hlive2, hp2.trans hp1, hl2.trans hl1⟩

/-- C11: for an object constructed with `parent`, `is_cow_clone()` called with the lock free
returns whether `parent` was given: `false` for a root object, `true` for a clone.  The
answer is the same after any sequence of `AddMappingLocked`, `RemoveMappingLocked`,
`AddChildLocked`, `RemoveChildLocked` and `RangeChangeUpdateLocked` calls on the object that
returned, once the lock is free again. -/
theorem is_cow_clone_iff_constructed_with_parent (k kc k0 kn : Kernel) (self : ObjId)
    (parent : Option ObjId) (calls : List Call)
    (hctor : VmObject_ctor k self parent = .ok kc)
    (hstart : k0.objs self = kc.objs self)
    (hrun : runCalls self k0 calls = .ok kn) :
    ∃ o o2, kc.objs self = some o ∧ kn.objs self = some o2 ∧ o2.lock_ = o.lock_ ∧
      (VmObject.is_cow_clone (kc.setHeld o.lock_ false) self).value = .ok parent.isSome ∧
      (VmObject.is_cow_clone (kn.setHeld o.lock_ false) self).value = .ok parent.isSome ∧
      (parent = none →
        (VmObject.is_cow_clone (kn.setHeld o.lock_ false) self).value = .ok false) ∧
      (parent ≠ none →
        (VmObject.is_cow_clone (kn.setHeld o.lock_ false) self).value = .ok true) := by
  obtain ⟨o, ho, hpar⟩ := ctor_parent k kc self parent hctor
  obtain ⟨o2, ho2, hp2, hl2⟩ := runCalls_keeps_parent self calls k0 kn o (hstart.trans ho) hrun
  have h1 : (VmObject.is_cow_clone (kc.setHeld o.lock_ false) self).value
      = .ok parent.isSome := by
    rw [isCowClone_run (kc.setHeld o.lock_ false) self o ho (by simp [Kernel.setHeld]), ← hpar]
    rfl
  have h2 : (VmObject.is_cow_clone (kn.setHeld o.lock_ false) self).value
      = .ok parent.isSome := by
    rw [isCowClone_run (kn.setHeld o.lock_ false) self o2 ho2
      (by rw [hl2]; simp [Kernel.setHeld]), hp2, hpar]
    rfl
  refine ⟨o, o2, ho, ho2, hl2, h1, h2, ?_, ?_⟩
  · intro hnone
    rw [h2, hnone]; rfl
  · intro hsome
    rw [h2]
    cases parent with
    | none => exact absurd rfl hsome
    | some p => rfl

/-- Witness of C11: the root constructed at address 0 answers `false` after mappings and a
child were added and a mapping removed; the clone constructed at address 2 with the demo
child as parent answers `true`. -/
theorem is_cow_clone_iff_constructed_with_parent_witness :
    (∃ kn, runCalls 0 rootKernel
        [Call.AddMappingLocked 1, Call.AddChildLocked 5, Call.RemoveMappingLocked 1] = .ok kn ∧
      (VmObject.is_cow_clone (kn.setHeld 0 false) 0).value = .ok false) ∧
    (∃ kc, VmObject_ctor (demoKernel false) 2 (some 1) = .ok kc ∧
      (VmObject.is_cow_clone (kc.setHeld 0 false) 2).value = .ok true) := by
  constructor
  · obtain ⟨o, o2, ho, _, _, _, _, h, _⟩ :=
      is_cow_clone_iff_constructed_with_parent emptyKernel
        (emptyKernel.setObj 0 (some freshRoot)) rootKernel _ 0 none
        [Call.AddMappingLocked 1, Call.AddChildLocked 5, Call.RemoveMappingLocked 1]
        rfl rfl rfl
    have ho0 : o = freshRoot := by
      have : (emptyKernel.setObj 0 (some freshRoot)).objs 0 = some freshRoot := rfl
      rw [this] at ho
      exact (Option.some.inj ho).symm
    subst ho0
    exact ⟨_, rfl, h rfl⟩
  · obtain ⟨o, o2, ho, _, _, _, _, _, h⟩ :=
      is_cow_clone_iff_constructed_with_parent (demoKernel false) _ _ _ 2 (some 1) []
        (rfl : VmObject_ctor (demoKernel false) 2 (some 1) = .ok _) rfl rfl
    have ho0 : o = VmObject.mk 0 (some 1) [] 0 [] 0 := by
      have h2 := ho
      simp only [setObj_self] at h2
      exact (Option.some.inj h2).symm
    subst ho0
    exact ⟨_, rfl, h (by simp)⟩

/-! ## Frame conditions -/

/-- C12: with the object `p` live and its lock held, `AddChildLocked(c)` returns, and
`RemoveChildLocked(c)` returns when the children count is positive; each changes only the
children list and the children count of `p`.  The mapping list, the mapping count, the parent
and the lock of `p` are as before, every other object (the parent of `p` and all further
ancestors among them) is as before, and no lock changes hands. -/
theorem child_registry_touches_only_own_children (k : Kernel) (p c : ObjId) (P : VmObject)
    (hlive : k.objs p = some P) (hheld : k.held P.lock_ = true) :
    (∃ k2 P2, VmObject.AddChildLocked k p c = .ok k2 ∧ k2.objs p = some P2 ∧
      P2.children_list_ = c :: P.children_list_ ∧
      P2.mapping_list_ = P.mapping_list_ ∧ P2.mapping_list_len_ = P.mapping_list_len_ ∧
      P2.parent_ = P.parent_ ∧ P2.lock_ = P.lock_ ∧
      (∀ j, j ≠ p → k2.objs j = k.objs j) ∧ (∀ l, k2.held l = k.held l)) ∧
    (P.children_list_len_ ≠ 0 →
      ∃ k2 P2, VmObject.RemoveChildLocked k p c = .ok k2 ∧ k2.objs p = some P2 ∧
        P2.children_list_ = P.children_list_.erase c ∧
        P2.mapping_list_ = P.mapping_list_ ∧ P2.mapping_list_len_ = P.mapping_list_len_ ∧
        P2.parent_ = P.parent_ ∧ P2.lock_ = P.lock_ ∧
        (∀ j, j ≠ p → k2.objs j = k.objs j) ∧ (∀ l, k2.held l = k.held l)) := by
  constructor
  · exact ⟨_, _, addChild_run k p P c hlive hheld, setObj_self _ _ _, rfl, rfl, rfl, rfl, rfl,
      fun j hj => setObj_other _ _ _ _ hj, fun _ => rfl⟩
  · intro hpos
    exact ⟨_, _, removeChild_run k p P c hlive hheld hpos, setObj_self _ _ _, rfl, rfl, rfl,
      rfl, rfl, fun j hj => setObj_other _ _ _ _ hj, fun _ => rfl⟩

/-- Witness of C12: the chain `R, C1, C2` is constructed at addresses 10, 11, 12, the lock
is acquired and `C1` is registered under `R`, which gives the objects of `chainKernel`; there,
registering `C2` under `C1` leaves `R` untouched, so that `num_children` answers 1 for `R`
and 1 for `C1`; removing it again leaves `R` untouched as well. -/
theorem child_registry_touches_only_own_children_witness :
    (∃ kb ka k1, buildChain emptyKernel none [10, 11, 12] = .ok kb ∧
      Mutex.Acquire kb 10 = .ok ka ∧ VmObject.AddChildLocked ka 10 11 = .ok k1 ∧
      k1.objs 10 = chainKernel.objs 10 ∧ k1.objs 11 = chainKernel.objs 11 ∧
      k1.objs 12 = chainKernel.objs 12 ∧ k1.held 10 = chainKernel.held 10) ∧
    (∃ k2, VmObject.AddChildLocked chainKernel 11 12 = .ok k2 ∧
      k2.objs 10 = chainKernel.objs 10 ∧
      (VmObject.num_children (k2.setHeld 10 false) 10).value = .ok 1 ∧
      (VmObject.num_children (k2.setHeld 10 false) 11).value = .ok 1) ∧
    (∃ k2, VmObject.RemoveChildLocked chainKernel 10 11 = .ok k2 ∧
      k2.objs 11 = chainKernel.objs 11 ∧ k2.objs 12 = chainKernel.objs 12) := by
  refine ⟨⟨_, _, _, rfl, rfl, rfl, rfl, rfl, rfl, rfl⟩, ?_, ?_⟩
  · obtain ⟨k2, P2, hrun, hP2, hlist, _, _, _, hlock, hrest, _⟩ :=
      (child_registry_touches_only_own_children chainKernel 11 12
        (VmObject.mk 10 (some 10) [] 0 [] 0) rfl rfl).1
    refine ⟨k2, hrun, hrest 10 (by decide), ?_, ?_⟩
    · rw [numChildren_run (k2.setHeld 10 false) 10 (VmObject.mk 10 none [] 0 [11] 1)
        (by show k2.objs 10 = _; rw [hrest 10 (by decide)]; rfl)
        (by simp [Kernel.setHeld])]
      rfl
    · have hrun2 := addChild_run chainKernel 11 (VmObject.mk 10 (some 10) [] 0 [] 0) 12 rfl rfl
      rw [hrun2] at hrun
      cases hrun
      rfl
  · obtain ⟨k2, P2, hrun, _, _, _, _, _, _, hrest, _⟩ :=
      (child_registry_touches_only_own_children chainKernel 10 11
        (VmObject.mk 10 none [] 0 [11] 1) rfl rfl).2 (by decide)
    exact ⟨k2, hrun, hrest 11 (by decide), hrest 12 (by decide)⟩

theorem locked_released (k : Kernel) (l : LockId) (hfree : k.held l = false) :
    ((((k.emit (Event.acquire l)).setHeld l true).emit (Event.release l)).setHeld l
        false).eventsSince k = [Event.acquire l, Event.release l] ∧
    (∀ j, ((((k.emit (Event.acquire l)).setHeld l true).emit (Event.release l)).setHeld l
        false).held j = k.held j) ∧
    (∀ j, ((((k.emit (Event.acquire l)).setHeld l true).emit (Event.release l)).setHeld l
        false).objs j = k.objs j) := by
  refine ⟨?_, ?_, fun _ => rfl⟩
  · simp [Kernel.eventsSince, Kernel.setHeld, Kernel.emit]
  · intro j
    by_cases hj : j = l
    · subst hj; simp [Kernel.setHeld, Kernel.emit, hfree]
    · simp [Kernel.setHeld, Kernel.emit, hj]

/-- C16: called on a live object whose lock is not held, `num_mappings()`, `num_children()`
and `is_cow_clone()` return the mapping count, the children count and whether a parent is
present.  Each acquires the lock and releases it, in that order and nothing else; on return
no lock has changed its state (the object's lock is free again) and every object, with all
its members, is as before. -/
theorem queries_lock_read_release (k : Kernel) (self : ObjId) (o : VmObject)
    (hlive : k.objs self = some o) (hfree : k.held o.lock_ = false) :
    (∃ k2, VmObject.num_mappings k self = .ok (o.mapping_list_len_, k2) ∧
      k2.eventsSince k = [Event.acquire o.lock_, Event.release o.lock_] ∧
      k2.held o.lock_ = false ∧ (∀ l, k2.held l = k.held l) ∧
      (∀ j, k2.objs j = k.objs j)) ∧
    (∃ k2, VmObject.num_children k self = .ok (o.children_list_len_, k2) ∧
      k2.eventsSince k = [Event.acquire o.lock_, Event.release o.lock_] ∧
      k2.held o.lock_ = false ∧ (∀ l, k2.held l = k.held l) ∧
      (∀ j, k2.objs j = k.objs j)) ∧
    (∃ k2, VmObject.is_cow_clone k self = .ok (o.parent_.isSome, k2) ∧
      k2.eventsSince k = [Event.acquire o.lock_, Event.release o.lock_] ∧
      k2.held o.lock_ = false ∧ (∀ l, k2.held l = k.held l) ∧
      (∀ j, k2.objs j = k.objs j)) := by
  obtain ⟨hev, hheld, hobjs⟩ := locked_released k o.lock_ hfree
  exact ⟨⟨_, numMappings_run k self o hlive hfree, hev, (hheld _).trans hfree, hheld, hobjs⟩,
    ⟨_, numChildren_run k self o hlive hfree, hev, (hheld _).trans hfree, hheld, hobjs⟩,
    ⟨_, isCowClone_run k self o hlive hfree, hev, (hheld _).trans hfree, hheld, hobjs⟩⟩

/-- Witness of C16: on the root of the demo state with the lock free, the three queries
answer 2 mappings, 1 child and no parent, and leave the root as it was. -/
theorem queries_lock_read_release_witness :
    (∃ k2, VmObject.num_mappings (demoKernel false) 0 = .ok (2, k2) ∧
      k2.eventsSince (demoKernel false) = [Event.acquire 0, Event.release 0] ∧
      k2.held 0 = false ∧ k2.objs 0 = some demoRoot) ∧
    (∃ k2, VmObject.num_children (demoKernel false) 0 = .ok (1, k2) ∧
      k2.held 0 = false ∧ k2.objs 0 = some demoRoot) ∧
    (∃ k2, VmObject.is_cow_clone (demoKernel false) 0 = .ok (false, k2) ∧
      k2.held 0 = false ∧ k2.objs 0 = some demoRoot) := by
  obtain ⟨⟨ka, ha, hev, hfa, _, hoa⟩, ⟨kb, hb, _, hfb, _, hob⟩, ⟨kc, hc, _, hfc, _, hoc⟩⟩ :=
    queries_lock_read_release (demoKernel false) 0 demoRoot rfl rfl
  exact ⟨⟨ka, ha, hev, hfa, hoa 0⟩, ⟨kb, hb, hfb, hob 0⟩, ⟨kc, hc, hfc, hoc 0⟩⟩

/-- C19: with the object live and its lock held, `RangeChangeUpdateLocked(offset, len)`
returns and leaves every object, the object itself with both lists, both counts and the
parent included, and every lock as before.  The calls it makes are the unmap requests, one per
entry of the mapping list, followed by the child notifications, one per entry of the children
list: every unmap request is issued before the first child is notified. -/
theorem rangeChange_leaves_state_unmaps_first (k : Kernel) (self : ObjId) (o : VmObject)
    (offset len : Nat) (hlive : k.objs self = some o) (hheld : k.held o.lock_ = true) :
    ∃ k2, VmObject.RangeChangeUpdateLocked k self offset len = .ok k2 ∧
      k2.objs self = some o ∧ (∀ j, k2.objs j = k.objs j) ∧ (∀ l, k2.held l = k.held l) ∧
      ∃ unmaps notes, k2.eventsSince k = unmaps ++ notes ∧
        unmaps.map (fun e => e.unmapCall.map Prod.fst) = o.mapping_list_.map some ∧
        notes.map Event.fromParentCall =
          o.children_list_.map (fun c => some (c, offset, len)) := by
  refine ⟨_, rangeChange_run k self o offset len hlive hheld, hlive, fun _ => rfl,
    fun _ => rfl,
    o.mapping_list_.map (fun m => Event.unmap m (ROUNDDOWN offset PAGE_SIZE)
      ((ROUNDUP ((offset + len) % U64) PAGE_SIZE + U64 - ROUNDDOWN offset PAGE_SIZE) % U64)),
    o.children_list_.map (fun c => Event.fromParent c offset len), ?_, ?_, ?_⟩
  · simp only [Kernel.eventsSince, List.drop_left]
  · simp [Event.unmapCall, Function.comp_def]
  · simp [Event.fromParentCall, Function.comp_def]

/-- Witness of C19: on the root of the demo state, `(100, 50)` yields the two unmap requests
and then the one notification, and the root is as before. -/
theorem rangeChange_leaves_state_unmaps_first_witness :
    ∃ k2, VmObject.RangeChangeUpdateLocked (demoKernel true) 0 100 50 = .ok k2 ∧
      k2.objs 0 = some demoRoot ∧
      k2.eventsSince (demoKernel true) =
        [Event.unmap 7 0 4096, Event.unmap 8 0 4096, Event.fromParent 1 100 50] := by
  obtain ⟨k2, hrun, hobj, _, _, _⟩ :=
    rangeChange_leaves_state_unmaps_first (demoKernel true) 0 demoRoot 100 50 rfl rfl
  refine ⟨k2, hrun, hobj, ?_⟩
  have h := rangeChange_run (demoKernel true) 0 demoRoot 100 50 rfl rfl
  rw [h] at hrun
  cases hrun
  rfl

/-! ## The page-aligned window -/

theorem rangeChange_unmapCalls (k : Kernel) (self : ObjId) (o : VmObject) (offset len : Nat)
    (hlive : k.objs self = some o) (hheld : k.held o.lock_ = true) :
    ∃ k2, VmObject.RangeChangeUpdateLocked k self offset len = .ok k2 ∧
      (k2.eventsSince k).filterMap Event.unmapCall =
        o.mapping_list_.map (fun m => (m, ROUNDDOWN offset PAGE_SIZE,
          (ROUNDUP ((offset + len) % U64) PAGE_SIZE + U64 - ROUNDDOWN offset PAGE_SIZE)
            % U64)) := by
  refine ⟨_, rangeChange_run k self o offset len hlive hheld, ?_⟩
  simp only [Kernel.eventsSince, List.drop_left, List.filterMap_append,
    filterMap_unmapCall_fromParent, filterMap_unmapCall_map, List.append_nil]

/-- C17: when `offset + len + PAGE_SIZE - 1` fits a `uint64_t`, the window
`(aligned_offset, aligned_len)` that `RangeChangeUpdateLocked` hands to every mapping is the
smallest page-aligned window covering the byte range: both numbers are multiples of the page
size, `aligned_offset <= offset < aligned_offset + PAGE_SIZE`,
`offset + len <= aligned_offset + aligned_len < offset + len + PAGE_SIZE`, and every
page-aligned window from `a` to `e` with `a <= offset` and `offset + len <= e` contains it. -/
theorem rangeChange_window_smallest_cover (k : Kernel) (self : ObjId) (o : VmObject)
    (offset len : Nat) (hlive : k.objs self = some o) (hheld : k.held o.lock_ = true)
    (hfit : offset + len + (PAGE_SIZE - 1) < U64) :
    ∃ k2 aligned_offset aligned_len,
      VmObject.RangeChangeUpdateLocked k self offset len = .ok k2 ∧
      (k2.eventsSince k).filterMap Event.unmapCall =
        o.mapping_list_.map (fun m => (m, aligned_offset, aligned_len)) ∧
      PAGE_SIZE ∣ aligned_offset ∧ PAGE_SIZE ∣ aligned_len ∧
      aligned_offset ≤ offset ∧ offset < aligned_offset + PAGE_SIZE ∧
      offset + len ≤ aligned_offset + aligned_len ∧
      aligned_offset + aligned_len < offset + len + PAGE_SIZE ∧
      (∀ a e, PAGE_SIZE ∣ a → PAGE_SIZE ∣ e → a ≤ offset → offset + len ≤ e →
        a ≤ aligned_offset ∧ aligned_offset + aligned_len ≤ e) := by
  obtain ⟨k2, hrun, hcalls⟩ := rangeChange_unmapCalls k self o offset len hlive hheld
  refine ⟨k2, _, _, hrun, hcalls, ?_, ?_, ?_, ?_, ?_, ?_, ?_⟩
  · exact ⟨offset / PAGE_SIZE, by simp only [ROUNDDOWN]; exact Nat.mul_comm _ _⟩
  · simp only [ROUNDUP, ROUNDDOWN, PAGE_SIZE, U64] at *
    omega
  · simp only [ROUNDDOWN, PAGE_SIZE]
    omega
  · simp only [ROUNDDOWN, PAGE_SIZE]
    omega
  · simp only [ROUNDUP, ROUNDDOWN, PAGE_SIZE, U64] at *
    omega
  · simp only [ROUNDUP, ROUNDDOWN, PAGE_SIZE, U64] at *
    omega
  · intro a e ha he hao hee
    obtain ⟨qa, rfl⟩ := ha
    obtain ⟨qe, rfl⟩ := he
    simp only [ROUNDUP, ROUNDDOWN, PAGE_SIZE, U64] at *
    omega

/-- Witness of C17: on the root of the demo state, `(100, 50)` gives the window
`(0, 4096)`, and `(4096, 8192)` gives the window `(4096, 8192)`. -/
theorem rangeChange_window_smallest_cover_witness :
    (∃ k2 aligned_offset aligned_len,
      VmObject.RangeChangeUpdateLocked (demoKernel true) 0 100 50 = .ok k2 ∧
      (k2.eventsSince (demoKernel true)).filterMap Event.unmapCall
        = [(7, aligned_offset, aligned_len), (8, aligned_offset, aligned_len)] ∧
      aligned_offset ≤ 100 ∧ 100 < aligned_offset + PAGE_SIZE ∧
      100 + 50 ≤ aligned_offset + aligned_len ∧
      aligned_offset + aligned_len < 100 + 50 + PAGE_SIZE) ∧
    (∃ k2, VmObject.RangeChangeUpdateLocked (demoKernel true) 0 100 50 = .ok k2 ∧
      (k2.eventsSince (demoKernel true)).filterMap Event.unmapCall
        = [(7, 0, 4096), (8, 0, 4096)]) ∧
    (∃ k2, VmObject.RangeChangeUpdateLocked (demoKernel true) 0 4096 8192 = .ok k2 ∧
      (k2.eventsSince (demoKernel true)).filterMap Event.unmapCall
        = [(7, 4096, 8192), (8, 4096, 8192)]) := by
  obtain ⟨k2, a, l, hrun, hcalls, _, _, h1, h2, h3, h4, _⟩ :=
    rangeChange_window_smallest_cover (demoKernel true) 0 demoRoot 100 50 rfl rfl (by decide)
  refine ⟨⟨k2, a, l, hrun, hcalls, h1, h2, h3, h4⟩, ?_, ?_⟩
  · obtain ⟨k3, hrun3, hcalls3⟩ :=
      rangeChange_unmapCalls (demoKernel true) 0 demoRoot 100 50 rfl rfl
    exact ⟨k3, hrun3, by rw [hcalls3]; decide⟩
  · obtain ⟨k3, hrun3, hcalls3⟩ :=
      rangeChange_unmapCalls (demoKernel true) 0 demoRoot 4096 8192 rfl rfl
    exact ⟨k3, hrun3, by rw [hcalls3]; decide⟩

/-- C18: for all `uint64_t` values `offset` and `len`, overflowing ones included, the
`aligned_len` that `RangeChangeUpdateLocked` hands to every mapping equals `(E - A) mod 2^64`,
where, over the unbounded naturals, `A` is `offset` rounded down and `E` is `offset + len`
rounded up to a multiple of the page size (and `aligned_offset` is `A`).  So `aligned_len` is
the exact length `E - A` whenever `E - A < 2^64`, and the window from `A` to
`A + aligned_len` covers the range from `offset` to `offset + len` exactly when
`E - A < 2^64`. -/
theorem rangeChange_aligned_len_wraps (k : Kernel) (self : ObjId) (o : VmObject)
    (offset len : Nat) (hlive : k.objs self = some o) (hheld : k.held o.lock_ = true)
    (ho : offset < U64) (hl : len < U64) :
    ∃ k2 aligned_len,
      VmObject.RangeChangeUpdateLocked k self offset len = .ok k2 ∧
      (k2.eventsSince k).filterMap Event.unmapCall =
        o.mapping_list_.map (fun m => (m, alignedOffset_spec offset, aligned_len)) ∧
      aligned_len = (alignedEnd_spec offset len - alignedOffset_spec offset) % U64 ∧
      (alignedEnd_spec offset len - alignedOffset_spec offset < U64 →
        aligned_len = alignedEnd_spec offset len - alignedOffset_spec offset) ∧
      ((alignedOffset_spec offset ≤ offset ∧
          offset + len ≤ alignedOffset_spec offset + aligned_len) ↔
        alignedEnd_spec offset len - alignedOffset_spec offset < U64) := by
  obtain ⟨k2, hrun, hcalls⟩ := rangeChange_unmapCalls k self o offset len hlive hheld
  rw [aligned_len_eq offset len ho hl, aligned_offset_eq] at hcalls
  refine ⟨k2, _, hrun, hcalls, rfl, ?_, ?_⟩
  · intro hlt
    exact Nat.mod_eq_of_lt hlt
  · simp only [alignedLength_spec, alignedEnd_spec, alignedOffset_spec, PAGE_SIZE, U64] at *
    constructor
    · intro h
      omega
    · intro h
      omega

/-- Witness of C18: on the root of the demo state, `offset = 0` and `len = 2^64 - 1` give
`aligned_len = 0`: the mappings are asked to unmap nothing. -/
theorem rangeChange_aligned_len_wraps_witness :
    ∃ k2, VmObject.RangeChangeUpdateLocked (demoKernel true) 0 0 18446744073709551615
        = .ok k2 ∧
      (k2.eventsSince (demoKernel true)).filterMap Event.unmapCall = [(7, 0, 0), (8, 0, 0)] ∧
      ¬ (alignedEnd_spec 0 18446744073709551615 - alignedOffset_spec 0 < U64) := by
  obtain ⟨k2, l, hrun, hcalls, hlen, _, _⟩ :=
    rangeChange_aligned_len_wraps (demoKernel true) 0 demoRoot 0 18446744073709551615 rfl rfl
      (by decide) (by decide)
  refine ⟨k2, hrun, ?_, by decide⟩
  rw [hcalls, hlen]
  decide

/-! ## The debug command -/

/-- C13: the code at the failing input.  With `argc = 2` and `argv = ["vm_object", "dump"]`
(or `"dump_pages"`) the address argument is missing, yet the command neither prints the usage
text nor returns `ERR_INTERNAL`: the second test is again `argc < 2`, which is false, and the
command reads `argv[2]`, one entry past the end of the argument vector, to call `Dump` on what
it finds there.  With no subcommand at all, and with an unknown subcommand, the usage text is
printed and `ERR_INTERNAL` returned. -/
theorem cmd_vm_object_reads_past_end :
    cmd_vm_object 2 [⟨"vm_object", 0⟩, ⟨"dump", 0⟩] = .error (CmdStop.readPastEnd 2 []) ∧
    cmd_vm_object 2 [⟨"vm_object", 0⟩, ⟨"dump_pages", 0⟩]
      = .error (CmdStop.readPastEnd 2 []) ∧
    cmd_vm_object 1 [⟨"vm_object", 0⟩]
      = .ok ([ConsoleStep.notEnoughArguments, ConsoleStep.usage "vm_object"],
          Status.ERR_INTERNAL) ∧
    cmd_vm_object 2 [⟨"vm_object", 0⟩, ⟨"list", 0⟩]
      = .ok ([ConsoleStep.unknownCommand, ConsoleStep.usage "vm_object"],
          Status.ERR_INTERNAL) ∧
    cmd_vm_object 3 [⟨"vm_object", 0⟩, ⟨"dump", 0⟩, ⟨"4096", 4096⟩]
      = .ok ([ConsoleStep.Dump 4096 false], Status.NO_ERROR) := by
  refine ⟨?_, ?_, ?_, ?_, ?_⟩ <;>
    simp [cmd_vm_object, cmd_vm_object_usage, cmd_vm_object_notenoughargs]

/-! ## The lock in the destructor -/

theorem dtor_held (k : Kernel) (self p : ObjId) (c : VmObject)
    (hlive : k.objs self = some c) (hpar : c.parent_ = some p)
    (hheld : k.held c.lock_ = true) :
    VmObject_dtor k self =
      (match VmObject.RemoveChildLocked k p self with
       | .ok kb => VmObject_dtor_asserts kb self
       | .error e => .error e) := by
  simp only [VmObject_dtor, hlive, hpar, Mutex.IsHeld, hheld, bind, Except.bind, pure,
    Except.pure, Bool.not_true, Bool.false_eq_true, if_false, VmObject_dtor_asserts]
  cases VmObject.RemoveChildLocked k p self <;> rfl

theorem dtor_free (k : Kernel) (self p : ObjId) (c : VmObject)
    (hlive : k.objs self = some c) (hpar : c.parent_ = some p)
    (hfree : k.held c.lock_ = false) :
    VmObject_dtor k self =
      (match VmObject.RemoveChildLocked
          ((k.emit (Event.acquire c.lock_)).setHeld c.lock_ true) p self with
       | .ok kb =>
         (match Mutex.Release kb c.lock_ with
          | .ok kc => VmObject_dtor_asserts kc self
          | .error e => .error e)
       | .error e => .error e) := by
  simp only [VmObject_dtor, hlive, hpar, Mutex.IsHeld, Mutex.Acquire, hfree, bind, Except.bind,
    pure, Except.pure, Bool.not_false, if_true, Bool.false_eq_true, if_false,
    VmObject_dtor_asserts]
  cases VmObject.RemoveChildLocked
      ((k.emit (Event.acquire c.lock_)).setHeld c.lock_ true) p self with
  | error e => rfl
  | ok kb =>
    simp only []
    cases Mutex.Release kb c.lock_ <;> rfl

theorem dtor_asserts_fault (k1 : Kernel) (self : ObjId) (f : Fault) (s : Kernel)
    (h : VmObject_dtor_asserts k1 self = .error (f, s)) : f.isAssertion = true := by
  unfold VmObject_dtor_asserts at h
  cases ho : k1.objs self with
  | none =>
    simp only [ho, Except.error.injEq, Prod.mk.injEq] at h
    rw [← h.1]; rfl
  | some o1 =>
    simp only [ho] at h
    split at h
    · simp only [Except.error.injEq, Prod.mk.injEq] at h
      rw [← h.1]; rfl
    · split at h
      · simp only [Except.error.injEq, Prod.mk.injEq] at h
        rw [← h.1]; rfl
      · cases h

/-- C14: the destructor of a live object with a parent never stops at a misuse of the mutex:
it does not acquire a lock that is held and does not release one that is not.  When the
parent is another live object that uses the same lock and counts at least one child, and the
object's own lists are empty, the destructor returns and runs as follows.  If the lock is
held at the start, `RemoveChildLocked` is called on the parent in the starting state, and no
lock call is made.  If the lock is free at the start, the lock is acquired,
`RemoveChildLocked` is called on the parent in the state that follows, with the lock held,
and the lock is released.  In both cases every lock is in the same state on exit as on
entry. -/
theorem dtor_locks_only_if_free (k : Kernel) (self p : ObjId) (c : VmObject)
    (hlive : k.objs self = some c) (hpar : c.parent_ = some p) :
    (∀ f s, VmObject_dtor k self = .error (f, s) → f.isAssertion = true) ∧
    (∀ P, p ≠ self → k.objs p = some P → c.lock_ = P.lock_ → P.children_list_len_ ≠ 0 →
      c.mapping_list_ = [] → c.children_list_ = [] →
      ∃ ka kb k2, VmObject.RemoveChildLocked ka p self = .ok kb ∧
        ka.held P.lock_ = true ∧
        VmObject_dtor k self = .ok k2 ∧
        (k.held c.lock_ = true → ka = k ∧ k2 = kb.setObj self none ∧ k2.eventsSince k = []) ∧
        (k.held c.lock_ = false →
          Mutex.Acquire k c.lock_ = .ok ka ∧
          (∃ kc, Mutex.Release kb c.lock_ = .ok kc ∧ k2 = kc.setObj self none) ∧
          k2.eventsSince k = [Event.acquire c.lock_, Event.release c.lock_]) ∧
        (∀ l, k2.held l = k.held l)) := by
  constructor
  · intro f s herr
    cases hheld : k.held c.lock_ with
    | true =>
      rw [dtor_held k self p c hlive hpar hheld] at herr
      rcases removeChild_cases k p self with ⟨f2, s2, h2, hf2⟩ | ⟨P, P2, _, hok⟩
      · rw [h2] at herr
        simp only [Except.error.injEq, Prod.mk.injEq] at herr
        rw [← herr.1]; exact hf2
      · rw [hok] at herr
        exact dtor_asserts_fault _ self f s herr
    | false =>
      rw [dtor_free k self p c hlive hpar hheld] at herr
      rcases removeChild_cases ((k.emit (Event.acquire c.lock_)).setHeld c.lock_ true) p self
        with ⟨f2, s2, h2, hf2⟩ | ⟨P, P2, _, hok⟩
      · rw [h2] at herr
        simp only [Except.error.injEq, Prod.mk.injEq] at herr
        rw [← herr.1]; exact hf2
      · rw [hok] at herr
        have hrel : Mutex.Release
            (((k.emit (Event.acquire c.lock_)).setHeld c.lock_ true).setObj p (some P2))
            c.lock_ = .ok (((((k.emit (Event.acquire c.lock_)).setHeld c.lock_ true).setObj p
              (some P2)).emit (Event.release c.lock_)).setHeld c.lock_ false) := by
          simp [Mutex.Release, Mutex.IsHeld, Kernel.setObj, Kernel.setHeld, Kernel.emit]
        simp only [hrel] at herr
        exact dtor_asserts_fault _ self f s herr
  · intro P hne hP hlock hpos hm hch
    cases hheld : k.held c.lock_ with
    | true =>
      have hrem := removeChild_run k p P self hP (by rw [← hlock]; exact hheld) hpos
      have hdtor : VmObject_dtor k self = .ok ((k.setObj p (some { P with
          children_list_ := P.children_list_.erase self,
          children_list_len_ := P.children_list_len_ - 1 })).setObj self none) := by
        rw [dtor_held k self p c hlive hpar hheld, hrem]
        simp [VmObject_dtor_asserts, setObj_other _ _ _ _ (Ne.symm hne), hlive, hm, hch]
      refine ⟨k, _, _, hrem, by rw [← hlock]; exact hheld, hdtor, ?_, ?_, fun _ => rfl⟩
      · intro _
        exact ⟨rfl, rfl, by simp [Kernel.eventsSince, Kernel.setObj]⟩
      · intro h
        cases h
    | false =>
      have hrem := removeChild_run ((k.emit (Event.acquire c.lock_)).setHeld c.lock_ true)
        p P self hP (by rw [← hlock]; simp [Kernel.setHeld]) hpos
      have hrel : Mutex.Release
          (((k.emit (Event.acquire c.lock_)).setHeld c.lock_ true).setObj p (some { P with
            children_list_ := P.children_list_.erase self,
            children_list_len_ := P.children_list_len_ - 1 }))
          c.lock_ = .ok (((((k.emit (Event.acquire c.lock_)).setHeld c.lock_ true).setObj p
            (some { P with
              children_list_ := P.children_list_.erase self,
              children_list_len_ := P.children_list_len_ - 1 })).emit
                (Event.release c.lock_)).setHeld c.lock_ false) := by
        simp [Mutex.Release, Mutex.IsHeld, Kernel.setObj, Kernel.setHeld, Kernel.emit]
      have hdtor : VmObject_dtor k self = .ok ((((((k.emit (Event.acquire c.lock_)).setHeld
          c.lock_ true).setObj p (some { P with
            children_list_ := P.children_list_.erase self,
            children_list_len_ := P.children_list_len_ - 1 })).emit
              (Event.release c.lock_)).setHeld c.lock_ false).setObj self none) := by
        rw [dtor_free k self p c hlive hpar hheld, hrem]
        simp only [hrel]
        simp [VmObject_dtor_asserts, Kernel.setObj, Kernel.setHeld, Kernel.emit,
          Ne.symm hne, hlive, hm, hch]
      refine ⟨(k.emit (Event.acquire c.lock_)).setHeld c.lock_ true, _, _, hrem,
        by rw [← hlock]; simp [Kernel.setHeld], hdtor, ?_, ?_, ?_⟩
      · intro h
        cases h
      · intro _
        refine ⟨by simp [Mutex.Acquire, Mutex.IsHeld, hheld], ⟨_, hrel, rfl⟩, ?_⟩
        simp [Kernel.eventsSince, Kernel.setObj, Kernel.setHeld, Kernel.emit]
      · intro l
        by_cases hl : l = c.lock_
        · subst hl; simp [Kernel.setObj, Kernel.setHeld, Kernel.emit, hheld]
        · simp [Kernel.setObj, Kernel.setHeld, Kernel.emit, hl]

/-- Witness of C14: destroying the child at address 1 of the demo state.  With the lock
free, the lock is acquired and released and is free on exit; with the lock held, no lock call
is made and the lock is still held on exit. -/
theorem dtor_locks_only_if_free_witness :
    (∃ k2, VmObject_dtor (demoKernel false) 1 = .ok k2 ∧
      k2.eventsSince (demoKernel false) = [Event.acquire 0, Event.release 0] ∧
      k2.held 0 = false) ∧
    (∃ k2, VmObject_dtor (demoKernel true) 1 = .ok k2 ∧
      k2.eventsSince (demoKernel true) = [] ∧ k2.held 0 = true) := by
  constructor
  · obtain ⟨ka, kb, k2, _, _, hrun, _, hfree, hheld⟩ :=
      (dtor_locks_only_if_free (demoKernel false) 1 0 demoChild rfl rfl).2 demoRoot
        (by decide) rfl rfl (by decide) rfl rfl
    exact ⟨k2, hrun, (hfree rfl).2.2, (hheld 0).trans rfl⟩
  · obtain ⟨ka, kb, k2, _, _, hrun, hkept, _, hheld⟩ :=
      (dtor_locks_only_if_free (demoKernel true) 1 0 demoChild rfl rfl).2 demoRoot
        (by decide) rfl rfl (by decide) rfl rfl
    exact ⟨k2, hrun, (hkept rfl).2.2, (hheld 0).trans rfl⟩

/-! ## Propagation through the clone tree -/

theorem descendant_of_child (objs : ObjId → Option VmObject) (root c : ObjId) (o : VmObject)
    (ho : objs root = some o) (hc : c ∈ o.children_list_) (d : ObjId)
    (h : Descendant objs c d) : Descendant objs root d := by
  induction h with
  | refl => exact Descendant.step Descendant.refl ho hc
  | step _ hd hm ih => exact Descendant.step ih hd hm

theorem isCloneTree_child (objs : ObjId → Option VmObject) (held : LockId → Bool)
    (rank : ObjId → Nat) (root c : ObjId) (o : VmObject)
    (htree : IsCloneTree objs held rank root)
    (ho : objs root = some o) (hc : c ∈ o.children_list_) :
    IsCloneTree objs held rank c :=
  fun d hd => htree d (descendant_of_child objs root c o ho hc d hd)

theorem forEachChild_run (fuel offset len : Nat) (rank : ObjId → Nat)
    (ih : ∀ (k : Kernel) (self : ObjId), IsCloneTree k.objs k.held rank self →
      rank self < fuel →
      VmObject.RangeChangeUpdateLocked_tree fuel k self offset len =
        some (.ok { k with trace := k.trace ++ treeEvents fuel k.objs self offset len }))
    (cs : List ObjId) :
    ∀ (k1 : Kernel), (∀ c ∈ cs, IsCloneTree k1.objs k1.held rank c ∧ rank c < fuel) →
      forEachChild
        (fun s child =>
          VmObject.RangeChangeUpdateLocked_tree fuel
            (s.emit (Event.fromParent child offset len)) child offset len) k1 cs =
        some (.ok { k1 with trace := k1.trace ++ cs.flatMap (fun c =>
          Event.fromParent c offset len :: treeEvents fuel k1.objs c offset len) }) := by
  induction cs with
  | nil =>
    intro k1 _
    simp [forEachChild]
  | cons c t iht =>
    intro k1 hall
    have hc := hall c (List.mem_cons_self _ _)
    have hstep := ih (k1.emit (Event.fromParent c offset len)) c hc.1 hc.2
    have hrest := iht
      { k1.emit (Event.fromParent c offset len) with
        trace := (k1.emit (Event.fromParent c offset len)).trace ++
          treeEvents fuel (k1.emit (Event.fromParent c offset len)).objs c offset len }
      (fun x hx => hall x (List.mem_cons_of_mem _ hx))
    simp only [forEachChild, hstep, hrest]
    simp [Kernel.emit, List.append_assoc]

theorem tree_run (offset len : Nat) (rank : ObjId → Nat) (fuel : Nat) :
    ∀ (k : Kernel) (self : ObjId), IsCloneTree k.objs k.held rank self → rank self < fuel →
      VmObject.RangeChangeUpdateLocked_tree fuel k self offset len =
        some (.ok { k with trace := k.trace ++ treeEvents fuel k.objs self offset len }) := by
  induction fuel with
  | zero =>
    intro k self _ h
    exact absurd h (Nat.not_lt_zero _)
  | succ fuel ih =>
    intro k self htree hrank
    obtain ⟨o, ho, hheld, hch⟩ := htree self Descendant.refl
    have hkids := forEachChild_run fuel offset len rank ih o.children_list_
      { k with trace := k.trace ++ o.mapping_list_.map (fun m =>
          Event.unmap m (ROUNDDOWN offset PAGE_SIZE)
            ((ROUNDUP ((offset + len) % U64) PAGE_SIZE + U64 - ROUNDDOWN offset PAGE_SIZE)
              % U64)) }
      (fun c hc => ⟨isCloneTree_child k.objs k.held rank self c o htree ho hc,
        by have := hch c hc; omega⟩)
    simp only [VmObject.RangeChangeUpdateLocked_tree, ho, Mutex.IsHeld, hheld, foldl_emit,
      treeEvents]
    simp only [Bool.true_eq_false, if_false]
    rw [hkids]
    simp [List.append_assoc]

theorem treeEvents_unmapCalls (objs : ObjId → Option VmObject) (offset len : Nat)
    (fuel : Nat) :
    ∀ self, (treeEvents fuel objs self offset len).filterMap Event.unmapCall =
      (subtreeMappings fuel objs self).map (fun m => (m, ROUNDDOWN offset PAGE_SIZE,
        (ROUNDUP ((offset + len) % U64) PAGE_SIZE + U64 - ROUNDDOWN offset PAGE_SIZE)
          % U64)) := by
  induction fuel with
  | zero =>
    intro self
    simp [treeEvents, subtreeMappings]
  | succ fuel ih =>
    intro self
    cases ho : objs self with
    | none => simp [treeEvents, subtreeMappings, ho]
    | some o =>
      have hkids : ∀ cs : List ObjId,
          (cs.flatMap (fun c =>
            Event.fromParent c offset len :: treeEvents fuel objs c offset len)).filterMap
              Event.unmapCall =
          (cs.flatMap (subtreeMappings fuel objs)).map (fun m =>
            (m, ROUNDDOWN offset PAGE_SIZE,
              (ROUNDUP ((offset + len) % U64) PAGE_SIZE + U64 - ROUNDDOWN offset PAGE_SIZE)
                % U64)) := by
        intro cs
        induction cs with
        | nil => simp
        | cons c t iht =>
          simp only [List.flatMap_cons, List.filterMap_append, List.map_append, iht,
            List.cons_append, List.filterMap_cons, Event.unmapCall, ih c]
      simp only [treeEvents, subtreeMappings, ho, List.filterMap_append, List.map_append,
        hkids, filterMap_unmapCall_map]

theorem subtreeMappings_mono (objs : ObjId → Option VmObject) (m : MappingId) (fuel : Nat) :
    ∀ (more : Nat) (d : ObjId), fuel ≤ more → m ∈ subtreeMappings fuel objs d →
      m ∈ subtreeMappings more objs d := by
  induction fuel with
  | zero =>
    intro more d _ h
    simp [subtreeMappings] at h
  | succ fuel ih =>
    intro more d hle h
    obtain ⟨more2, rfl⟩ : ∃ n, more = n + 1 := ⟨more - 1, by omega⟩
    cases ho : objs d with
    | none => simp [subtreeMappings, ho] at h
    | some o =>
      simp only [subtreeMappings, ho, List.mem_append, List.mem_flatMap] at h ⊢
      rcases h with h | ⟨c, hc, hm⟩
      · exact Or.inl h
      · exact Or.inr ⟨c, hc, ih more2 c (by omega) hm⟩

theorem descendant_mappings (objs : ObjId → Option VmObject) (held : LockId → Bool)
    (rank : ObjId → Nat) (root : ObjId) (htree : IsCloneTree objs held rank root)
    (m : MappingId) (d : ObjId) (hd : Descendant objs root d) :
    m ∈ subtreeMappings (rank d + 1) objs d →
      m ∈ subtreeMappings (rank root + 1) objs root := by
  induction hd with
  | refl => exact fun h => h
  | step hd2 ho hc ih =>
    intro h
    apply ih
    obtain ⟨o2, ho2, _, hrank⟩ := htree _ hd2
    rw [ho] at ho2
    cases ho2
    simp only [subtreeMappings, ho, List.mem_append, List.mem_flatMap]
    exact Or.inr ⟨_, hc, subtreeMappings_mono objs m _ _ _ (hrank _ hc) h⟩

/-- C15: let the objects below `self` form a finite, acyclic clone tree under one held lock
(every object of the tree live with its lock held, children strictly lower in `rank`), and
let every child forward the range it receives to its own `RangeChangeUpdateLocked`.  Then
`RangeChangeUpdateLocked(offset, len)` on `self` terminates: with any fuel above the rank of
`self` the descent returns, and it leaves every object as it was.  The unmap requests issued
are one per mapping registration of the tree, own mappings first and then subtree by subtree,
each with the page-aligned window of `(offset, len)`.  Every mapping registered with `self`
or with any of its descendants is among the receivers, and when no mapping is registered
twice in the tree each of them receives exactly one request. -/
theorem rangeChange_reaches_whole_tree (k : Kernel) (self : ObjId) (rank : ObjId → Nat)
    (offset len fuel : Nat)
    (htree : IsCloneTree k.objs k.held rank self) (hfuel : rank self < fuel)
    (ho : offset < U64) (hl : len < U64) :
    ∃ k2, VmObject.RangeChangeUpdateLocked_tree fuel k self offset len = some (.ok k2) ∧
      (∀ j, k2.objs j = k.objs j) ∧
      (k2.eventsSince k).filterMap Event.unmapCall =
        (subtreeMappings fuel k.objs self).map
          (fun m => (m, alignedOffset_spec offset, alignedLength_spec offset len % U64)) ∧
      (∀ d o m, Descendant k.objs self d → k.objs d = some o → m ∈ o.mapping_list_ →
        m ∈ subtreeMappings fuel k.objs self) ∧
      ((subtreeMappings fuel k.objs self).Nodup →
        ∀ d o m, Descendant k.objs self d → k.objs d = some o → m ∈ o.mapping_list_ →
          (((k2.eventsSince k).filterMap Event.unmapCall).map Prod.fst).count m = 1) := by
  have hrun := tree_run offset len rank fuel k self htree hfuel
  have hcalls : (Kernel.eventsSince
      { k with trace := k.trace ++ treeEvents fuel k.objs self offset len } k).filterMap
        Event.unmapCall =
      (subtreeMappings fuel k.objs self).map
        (fun m => (m, alignedOffset_spec offset, alignedLength_spec offset len % U64)) := by
    simp only [Kernel.eventsSince, List.drop_left, treeEvents_unmapCalls]
    rw [aligned_len_eq offset len ho hl, aligned_offset_eq]
  have hmem : ∀ d o m, Descendant k.objs self d → k.objs d = some o → m ∈ o.mapping_list_ →
      m ∈ subtreeMappings fuel k.objs self := by
    intro d o m hd hlive hm
    apply subtreeMappings_mono k.objs m (rank self + 1) fuel self hfuel
    apply descendant_mappings k.objs k.held rank self htree m d hd
    simp only [subtreeMappings, hlive, List.mem_append]
    exact Or.inl hm
  refine ⟨_, hrun, fun _ => rfl, hcalls, hmem, ?_⟩
  intro hnodup d o m hd hlive hm
  rw [hcalls, List.map_map]
  have hfst : (Prod.fst ∘ fun m : MappingId =>
      (m, alignedOffset_spec offset, alignedLength_spec offset len % U64)) = id := by
    funext x; rfl
  rw [hfst, List.map_id]
  exact List.count_eq_one_of_mem hnodup (hmem d o m hd hlive hm)

theorem treeKernel_descendants (d : ObjId) (h : Descendant treeKernel.objs 10 d) :
    d = 10 ∨ d = 11 ∨ d = 12 := by
  induction h with
  | refl => exact Or.inl rfl
  | step _ ho hc ih =>
    rcases ih with rfl | rfl | rfl
    · have ho2 : some (VmObject.mk 10 none [7] 1 [11] 1) = some _ := ho
      cases ho2
      simp only [List.mem_singleton] at hc
      exact Or.inr (Or.inl hc)
    · have ho2 : some (VmObject.mk 10 (some 10) [] 0 [12] 1) = some _ := ho
      cases ho2
      simp only [List.mem_singleton] at hc
      exact Or.inr (Or.inr hc)
    · have ho2 : some (VmObject.mk 10 (some 11) [8, 9] 2 [] 0) = some _ := ho
      cases ho2
      cases hc

theorem treeKernel_isCloneTree :
    IsCloneTree treeKernel.objs treeKernel.held (fun i => 12 - i) 10 := by
  intro d hd
  rcases treeKernel_descendants d hd with rfl | rfl | rfl
  · exact ⟨_, rfl, rfl, by decide⟩
  · exact ⟨_, rfl, rfl, by decide⟩
  · exact ⟨_, rfl, rfl, by decide⟩

/-- Witness of C15 (page size 4096): in the chain `R, C1, C2` of `treeKernel`, the call
`RangeChangeUpdateLocked(R, 100, 50)` returns and asks mapping 7 of `R` and mappings 8 and 9
of `C2` to unmap `(0, 4096)`, each exactly once. -/
theorem rangeChange_reaches_whole_tree_witness :
    ∃ k2, VmObject.RangeChangeUpdateLocked_tree 3 treeKernel 10 100 50 = some (.ok k2) ∧
      (k2.eventsSince treeKernel).filterMap Event.unmapCall
        = [(7, 0, 4096), (8, 0, 4096), (9, 0, 4096)] ∧
      (((k2.eventsSince treeKernel).filterMap Event.unmapCall).map Prod.fst).count 9 = 1 := by
  obtain ⟨k2, hrun, _, hcalls, _, hone⟩ :=
    rangeChange_reaches_whole_tree treeKernel 10 (fun i => 12 - i) 100 50 3
      treeKernel_isCloneTree (by decide) (by decide) (by decide)
  refine ⟨k2, hrun, ?_, ?_⟩
  · rw [hcalls]; decide
  · exact hone (by decide) 12 (VmObject.mk 10 (some 11) [8, 9] 2 [] 0) 9
      (Descendant.step (Descendant.step Descendant.refl
        (rfl : treeKernel.objs 10 = some (VmObject.mk 10 none [7] 1 [11] 1)) (by decide))
        (rfl : treeKernel.objs 11 = some (VmObject.mk 10 (some 10) [] 0 [12] 1)) (by decide))
      rfl (by decide)

end Magenta
